import Mathlib

/-
Verification development for the sparqlsmith library.

Shallow embedding of the pattern data model, the structural-equivalence
engine, variable instantiation, node removal, the graph-shape classifier,
the serializer, and the grammar parser pipeline, translated from
src/sparqlsmith/query.py, src/sparqlsmith/parser.py,
src/sparqlsmith/graph_analysis.py and src/sparqlsmith/errors.py.

Modelling conventions:
  Python strings are Lean String; str.startswith('?') is modelled by
  inspecting the head character of the string's character list and
  s[1:] by dropping the head character.
  Python dicts used as variable mappings are association lists whose
  keys are unique by construction (a binding is only ever added after a
  failed lookup).
  Python None occurring in a pattern slot (where_clause of a query, or
  a nulled child of a wrapper during removal) is modelled by the
  dedicated Pattern.pnull constructor; note that in the source the
  where_clause attribute, wrapper children and list elements share the
  single Python value None, so one constructor models all of them.
  A Python list of sibling patterns (list-valued where_clause) is
  modelled by the Pattern.seq constructor, mirroring the fact that
  isinstance(clause, list) is a branch of every traversal.
  Python exceptions are modelled with Except String.
-/

/-- Triple pattern: subject, predicate, object, as in query.py TriplePattern
(the parent back-reference is modelled separately, see the removal model). -/
structure Triple where
  subject : String
  predicate : String
  object : String
deriving DecidableEq, Repr

/-- AggregationExpression from query.py: function, variable, alias, distinct. -/
structure Agg where
  aggFunction : String
  aggVariable : String
  aggAlias : String
  aggDistinct : Bool
deriving DecidableEq, Repr

/-- The ascending attribute of OrderBy: either a single boolean applied to all
variables or one boolean per variable. -/
inductive AscFlag where
  | one (b : Bool)
  | many (bs : List Bool)
deriving DecidableEq, Repr

/-- OrderBy from query.py: ordered variables plus ascending flag(s). -/
structure OrderBySpec where
  obVariables : List String
  obAscending : AscFlag
deriving DecidableEq, Repr

mutual
/-- The recursive pattern sum type of query.py: BGP (triples plus scoped
filter expressions), UnionOperator (left, right), OptionalOperator (inner),
GroupGraphPattern (inner pattern plus scoped filter expressions),
SubQuery (a full nested query), a Python list of sibling patterns (seq),
and Python None in a pattern slot (pnull). -/
inductive Pattern where
  | pnull
  | bgp (triples : List Triple) (filters : List String)
  | unionOp (left right : Pattern)
  | optionalOp (inner : Pattern)
  | group (inner : Pattern) (filters : List String)
  | subquery (q : SQuery)
  | seq (items : List Pattern)

/-- SPARQLQuery from query.py with the attributes the claims depend on:
projection_variables, where_clause, filters, having, order_by, group_by,
limit, offset, graph, is_distinct, aggregations.  A Filter or Having object
is represented by its expression string. -/
inductive SQuery where
  | mk (projection_variables : List String)
       (where_clause : Pattern)
       (filters : Option (List String))
       (having : Option (List String))
       (order_by : Option OrderBySpec)
       (group_by : Option (List String))
       (limit : Option Int)
       (offset : Option Int)
       (graph : Option String)
       (is_distinct : Bool)
       (aggregations : List Agg)
end

def SQuery.projectionVariables : SQuery → List String
  | .mk pv _ _ _ _ _ _ _ _ _ _ => pv

def SQuery.whereClause : SQuery → Pattern
  | .mk _ w _ _ _ _ _ _ _ _ _ => w

def SQuery.groupBy : SQuery → Option (List String)
  | .mk _ _ _ _ _ gb _ _ _ _ _ => gb

def SQuery.aggs : SQuery → List Agg
  | .mk _ _ _ _ _ _ _ _ _ _ ag => ag

/-- Models Python value.startswith('?') for the single-character sigil:
true iff the first character is '?'. -/
def startsQ (s : String) : Bool := s.data.head? = some '?'

/-- Models Python value[1:]: drop the first character. -/
def strTail (s : String) : String := String.mk s.data.tail

/-- Variable mapping (Python dict) as an association list with unique keys. -/
abbrev VarMap := List (String × String)

/-- Dict lookup: first binding of the key, if any. -/
def vmLookup : VarMap → String → Option String
  | [], _ => none
  | (k, v) :: rest, key => if k = key then some v else vmLookup rest key

/-- Models var2 in variable_mapping.values(). -/
def vmHasValue (m : VarMap) (v : String) : Bool :=
  m.any (fun p => p.2 = v)

/-- Models var_name in mapping_dict (key membership). -/
def vmHasKey (m : VarMap) (k : String) : Bool :=
  (vmLookup m k).isSome

/-- SPARQLQuery._compare_terms: two variables are compatible with the shared
injective mapping (extending it when the source variable is fresh and the
target variable is not already an image); two non-variables must be equal
strings.  The Python method mutates the mapping and returns a bool; here a
successful comparison returns the updated mapping. -/
def compareTerms (t1 t2 : String) (m : VarMap) : Option VarMap :=
  if startsQ t1 && startsQ t2 then
    let v1 := strTail t1
    let v2 := strTail t2
    match vmLookup m v1 with
    | some w => if w = v2 then some m else none
    | none => if vmHasValue m v2 then none else some ((v1, v2) :: m)
  else
    if t1 = t2 then some m else none

/-- SPARQLQuery._compare_triple_patterns: subject, predicate and object must
match in turn, threading the mapping. -/
def compareTriplePatterns (a b : Triple) (m : VarMap) : Option VarMap :=
  (compareTerms a.subject b.subject m).bind (fun m1 =>
    (compareTerms a.predicate b.predicate m1).bind (fun m2 =>
      compareTerms a.object b.object m2))

/-- The candidate loop inside SPARQLQuery._compare_bgps.match_triples: try
each target index in order, skipping used ones; on a triple match recurse via
cont (matching the remaining source triples with the index marked used) and
backtrack to the next candidate if that fails. -/
def tryCands (l2 : List Triple) (tp : Triple) (m : VarMap) (used : List Nat)
    (cont : List Nat → VarMap → Option VarMap) : List Nat → Option VarMap
  | [] => none
  | k :: ks =>
    if k ∈ used then tryCands l2 tp m used cont ks
    else
      match l2[k]? with
      | none => tryCands l2 tp m used cont ks
      | some tp2 =>
        match compareTriplePatterns tp tp2 m with
        | none => tryCands l2 tp m used cont ks
        | some m2 =>
          match cont (k :: used) m2 with
          | some mf => some mf
          | none => tryCands l2 tp m used cont ks

/-- SPARQLQuery._compare_bgps.match_triples: all source triples matched means
success (returning the mapping, which the Python code commits via update);
otherwise try every candidate target triple for the head source triple. -/
def matchTriples (l2 : List Triple) : List Triple → List Nat → VarMap → Option VarMap
  | [], _, m => some m
  | tp :: rest, used, m =>
    tryCands l2 tp m used (fun u mm => matchTriples l2 rest u mm) (List.range l2.length)

/-- SPARQLQuery._compare_bgps: triple counts must agree, then run the
backtracking bipartite match starting from an empty used set. -/
def compareBGPs (t1 t2 : List Triple) (m : VarMap) : Option VarMap :=
  if t1.length ≠ t2.length then none
  else matchTriples t2 t1 [] m

mutual
/-- SPARQLQuery._compare_clauses: both sides must have the same kind
(type(clause1) != type(clause2) yields False, and so does a kind without a
handler, including Python None on both sides); BGPs run the backtracking
match, unions are compared commutatively (the union branch inlines
_compare_unions), optionals and groups recurse on their inner patterns,
subqueries delegate to the nested queries' own is_isomorphic with a fresh
mapping, and lists are compared position-wise after a length check. -/
def compareClauses : Pattern → Pattern → VarMap → Option VarMap
  | .bgp t1 _, .bgp t2 _, m => compareBGPs t1 t2 m
  | .unionOp a b, .unionOp c d, m =>
    match (compareClauses a c m).bind (fun m1 => compareClauses b d m1) with
    | some m2 => some m2
    | none => (compareClauses a d m).bind (fun m1 => compareClauses b c m1)
  | .optionalOp a, .optionalOp b, m => compareClauses a b m
  | .subquery (.mk _ w1 _ _ _ _ _ _ _ _ _), .subquery (.mk _ w2 _ _ _ _ _ _ _ _ _), m =>
    if (compareClauses w1 w2 []).isSome then some m else none
  | .group p1 _, .group p2 _, m => compareClauses p1 p2 m
  | .seq xs, .seq ys, m =>
    if xs.length ≠ ys.length then none else compareSeqs xs ys m
  | _, _, _ => none

/-- The position-wise list comparison of _compare_clauses (zip of the two
lists, failing as soon as one pair fails). -/
def compareSeqs : List Pattern → List Pattern → VarMap → Option VarMap
  | [], [], m => some m
  | x :: xs, y :: ys, m => (compareClauses x y m).bind (fun m1 => compareSeqs xs ys m1)
  | _, _, _ => none
end

/-- SPARQLQuery.is_isomorphic: compare the two where clauses under an
initially empty variable mapping. -/
def isIsomorphic (q1 q2 : SQuery) : Bool :=
  (compareClauses q1.whereClause q2.whereClause []).isSome

/-- SPARQLQuery._replace_variable: a variable whose sigil-stripped name is a
key of the mapping is replaced by the bound value wrapped in angle brackets
(unconditionally); anything else is returned unchanged. -/
def replaceVariable (value : String) (m : VarMap) : String :=
  if startsQ value then
    let varName := strTail value
    match vmLookup m varName with
    | some v => "<" ++ v ++ ">"
    | none => value
  else value

mutual
/-- SPARQLQuery._collect_variables: gather '?'-prefixed terms of BGP triples,
recursing through unions, optionals, subqueries (whose get_all_variables is
inlined as a walk over the nested where clause) and lists; GroupGraphPattern
has no branch in the source and is skipped.  The Python code accumulates
into a set; here the accumulator is an ordered duplicate-free list, so only
its membership is meaningful (CPython set iteration order is unspecified). -/
def collectVariables : Pattern → List String → List String
  | .bgp ts _, acc => collectTripleVars ts acc
  | .unionOp a b, acc => collectVariables b (collectVariables a acc)
  | .optionalOp a, acc => collectVariables a acc
  | .subquery (.mk _ w _ _ _ _ _ _ _ _ _), acc => collectVariables w acc
  | .seq xs, acc => collectVariablesList xs acc
  | _, acc => acc

def collectVariablesList : List Pattern → List String → List String
  | [], acc => acc
  | x :: xs, acc => collectVariablesList xs (collectVariables x acc)

def collectTripleVars : List Triple → List String → List String
  | [], acc => acc
  | t :: ts, acc =>
    collectTripleVars ts
      (addIfVar (addIfVar (addIfVar acc t.subject) t.predicate) t.object)

def addIfVar (acc : List String) (term : String) : List String :=
  if startsQ term then (if term ∈ acc then acc else acc ++ [term]) else acc
end

/-- SPARQLQuery.get_all_variables: walk the where clause with an empty
accumulator. -/
def getAllVariables (q : SQuery) : List String :=
  collectVariables q.whereClause []

mutual
/-- SPARQLQuery._instantiate_clause: substitute every term of every BGP
triple, recurse through unions, optionals and lists, and delegate a SubQuery
to the nested query's own instantiate.  GroupGraphPattern has no branch in
the source, so a group and its entire contents are left unchanged. -/
def instantiateClause : Pattern → VarMap → Pattern
  | .bgp ts fs, m =>
    .bgp (ts.map (fun t =>
      { subject := replaceVariable t.subject m,
        predicate := replaceVariable t.predicate m,
        object := replaceVariable t.object m })) fs
  | .unionOp a b, m => .unionOp (instantiateClause a m) (instantiateClause b m)
  | .optionalOp a, m => .optionalOp (instantiateClause a m)
  | .subquery q, m => .subquery (instantiateQuery q m)
  | .group p fs, _ => .group p fs
  | .seq xs, m => .seq (instantiateList xs m)
  | .pnull, _ => .pnull

def instantiateList : List Pattern → VarMap → List Pattern
  | [], _ => []
  | x :: xs, m => instantiateClause x m :: instantiateList xs m

/-- SPARQLQuery.instantiate: substitute in the where clause, then, when the
projection list is not the wildcard list, keep only the projected variables
that start with '?' and whose sigil-stripped name is not a key of the
mapping, repopulating from get_all_variables (on the updated tree) when that
filter empties the list. -/
def instantiateQuery : SQuery → VarMap → SQuery
  | .mk pv w f h ob gb l o g d ag, m =>
    let w2 := instantiateClause w m
    let pv2 :=
      if pv ≠ ["*"] then
        let kept := pv.filter (fun v => startsQ v && !(vmHasKey m (strTail v)))
        if kept = [] then collectVariables w2 [] else kept
      else pv
    .mk pv2 w2 f h ob gb l o g d ag
end

mutual
/-- All subject/predicate/object terms of all triples reachable anywhere in a
pattern, including inside GroupGraphPattern wrappers and nested subqueries
(analysis helper used to state what instantiation reaches). -/
def patternTerms : Pattern → List String
  | .bgp ts _ => tripleTermsList ts
  | .unionOp a b => patternTerms a ++ patternTerms b
  | .optionalOp a => patternTerms a
  | .group p _ => patternTerms p
  | .subquery (.mk _ w _ _ _ _ _ _ _ _ _) => patternTerms w
  | .seq xs => patternTermsList xs
  | .pnull => []

def patternTermsList : List Pattern → List String
  | [] => []
  | x :: xs => patternTerms x ++ patternTermsList xs

def tripleTermsList : List Triple → List String
  | [] => []
  | t :: ts => t.subject :: t.predicate :: t.object :: tripleTermsList ts
end

mutual
/-- True when a pattern contains no GroupGraphPattern wrapper and no Python
None slot anywhere (including inside nested subqueries). -/
def noGroupP : Pattern → Bool
  | .bgp _ _ => true
  | .unionOp a b => noGroupP a && noGroupP b
  | .optionalOp a => noGroupP a
  | .group _ _ => false
  | .subquery (.mk _ w _ _ _ _ _ _ _ _ _) => noGroupP w
  | .seq xs => noGroupL xs
  | .pnull => false

def noGroupL : List Pattern → Bool
  | [] => true
  | x :: xs => noGroupP x && noGroupL xs
end

mutual
/-- Well-formedness for the structural-equivalence claims: the pattern
is an actual pattern combination (no Python None slot anywhere, including
the where clause of every nested subquery). -/
def wfP : Pattern → Bool
  | .bgp _ _ => true
  | .unionOp a b => wfP a && wfP b
  | .optionalOp a => wfP a
  | .group p _ => wfP p
  | .subquery (.mk _ w _ _ _ _ _ _ _ _ _) => wfP w
  | .seq xs => wfL xs
  | .pnull => false

def wfL : List Pattern → Bool
  | [] => true
  | x :: xs => wfP x && wfL xs
end

def wfQ (q : SQuery) : Bool := wfP q.whereClause

mutual
/-- Size measure for strong induction over the nested pattern tree. -/
def psize : Pattern → Nat
  | .pnull => 1
  | .bgp _ _ => 1
  | .unionOp a b => psize a + psize b + 1
  | .optionalOp a => psize a + 1
  | .group p _ => psize p + 1
  | .subquery (.mk _ w _ _ _ _ _ _ _ _ _) => psize w + 1
  | .seq xs => lsize xs + 1

def lsize : List Pattern → Nat
  | [] => 0
  | x :: xs => psize x + lsize xs + 1
end

/-
Removal model.  In the source every node carries a mutable parent
back-reference; remove() inspects the parent's kind, detaches the node from
the corresponding slot, and a wrapper whose only child was detached removes
itself from its own parent (upward cascade terminating at the query, whose
where_clause may become None).  Here the chain of parents of a node is an
explicit context ending at the query; the functions below mirror the remove
methods of query.py branch by branch and return the bool result of remove()
together with the root query's resulting where clause (none when the node
has no parent, in which case there is no containing tree at all).
Detaching from a list-valued where clause is positional: in the source
list.remove(self) removes the first element equal to self, and equality for
a pattern object bottoms out at object identity (BGP and SPARQLQuery define
no __eq__), so the element removed is the node itself.
AttributeError raised by the source (BGP.remove accessing .left on a
GroupGraphPattern parent) is modelled with Except.error.
-/

/-- Location of a node inside its root query: the chain of parents.  qSingle
means the node is the whole where_clause; qList means the node is an element
of a list-valued where_clause with the given siblings. -/
inductive RCtx where
  | qSingle
  | qList (before after : List Pattern)
  | inOptional (up : RCtx)
  | inUnionLeft (right : Pattern) (up : RCtx)
  | inUnionRight (left : Pattern) (up : RCtx)
  | inGroupPat (fs : List String) (up : RCtx)

/-- Rebuild the root where clause from a node and its context. -/
def plugCtx : Pattern → RCtx → Pattern
  | p, .qSingle => p
  | p, .qList b a => .seq (b ++ p :: a)
  | p, .inOptional up => plugCtx (.optionalOp p) up
  | p, .inUnionLeft r up => plugCtx (.unionOp p r) up
  | p, .inUnionRight l up => plugCtx (.unionOp l p) up
  | p, .inGroupPat fs up => plugCtx (.group p fs) up

mutual
/-- BGP.remove from query.py: no parent yields False; a query parent clears
the single slot or removes the node from the list; an OptionalOperator
parent nulls its child and cascades; a UnionOperator parent nulls the
corresponding side and cascades; a GroupGraphPattern parent hits the
UnionOperator/GroupGraphPattern isinstance branch and raises AttributeError
on the missing .left attribute. -/
def removeBGP (_ts : List Triple) (_fs : List String) :
    Option RCtx → Except String (Bool × Option Pattern)
  | none => .ok (false, none)
  | some .qSingle => .ok (true, some .pnull)
  | some (.qList b a) => .ok (true, some (.seq (b ++ a)))
  | some (.inOptional up) => do
    let r ← removeOptional .pnull (some up)
    return (true, r.2)
  | some (.inUnionLeft rt up) => do
    let r ← removeUnion .pnull rt (some up)
    return (true, r.2)
  | some (.inUnionRight lt up) => do
    let r ← removeUnion lt .pnull (some up)
    return (true, r.2)
  | some (.inGroupPat _ _) =>
    .error "AttributeError: GroupGraphPattern object has no attribute left"

/-- OptionalOperator.remove from query.py: handled parents are the query
(single slot or list) and GroupGraphPattern (null the child, cascade); any
other parent kind falls through and returns False leaving the tree as is. -/
def removeOptional (inner : Pattern) :
    Option RCtx → Except String (Bool × Option Pattern)
  | none => .ok (false, none)
  | some .qSingle => .ok (true, some .pnull)
  | some (.qList b a) => .ok (true, some (.seq (b ++ a)))
  | some (.inGroupPat fs up) => do
    let r ← removeGroup .pnull fs (some up)
    return (true, r.2)
  | some c => .ok (false, some (plugCtx (.optionalOp inner) c))

/-- UnionOperator.remove from query.py: same handled parents as
OptionalOperator.remove. -/
def removeUnion (lt rt : Pattern) :
    Option RCtx → Except String (Bool × Option Pattern)
  | none => .ok (false, none)
  | some .qSingle => .ok (true, some .pnull)
  | some (.qList b a) => .ok (true, some (.seq (b ++ a)))
  | some (.inGroupPat fs up) => do
    let r ← removeGroup .pnull fs (some up)
    return (true, r.2)
  | some c => .ok (false, some (plugCtx (.unionOp lt rt) c))

/-- GroupGraphPattern.remove from query.py: query parents detach; a
GroupGraphPattern parent nulls its child and returns True without
cascading; any other parent kind returns False. -/
def removeGroup (inner : Pattern) (fs : List String) :
    Option RCtx → Except String (Bool × Option Pattern)
  | none => .ok (false, none)
  | some .qSingle => .ok (true, some .pnull)
  | some (.qList b a) => .ok (true, some (.seq (b ++ a)))
  | some (.inGroupPat fs2 up) =>
    .ok (true, some (plugCtx (.group .pnull fs2) up))
  | some c => .ok (false, some (plugCtx (.group inner fs) c))
end

/-- SubQuery.remove from query.py: handles query parents, OptionalOperator,
UnionOperator (either side) and GroupGraphPattern, nulling the slot and
cascading in the wrapper cases. -/
def removeSubquery (_q : SQuery) :
    Option RCtx → Except String (Bool × Option Pattern)
  | none => .ok (false, none)
  | some .qSingle => .ok (true, some .pnull)
  | some (.qList b a) => .ok (true, some (.seq (b ++ a)))
  | some (.inOptional up) => do
    let r ← removeOptional .pnull (some up)
    return (true, r.2)
  | some (.inUnionLeft rt up) => do
    let r ← removeUnion .pnull rt (some up)
    return (true, r.2)
  | some (.inUnionRight lt up) => do
    let r ← removeUnion lt .pnull (some up)
    return (true, r.2)
  | some (.inGroupPat fs up) => do
    let r ← removeGroup .pnull fs (some up)
    return (true, r.2)

/-- TriplePattern.remove from query.py: with a parent BGP that contains the
triple, remove the first structurally equal occurrence (TriplePattern is a
dataclass, so Python equality is field equality) and return True; with no
parent return False.  The result is the parent BGP's updated triple list. -/
def removeTriplePattern (t : Triple) :
    Option (List Triple) → Bool × Option (List Triple)
  | none => (false, none)
  | some ts =>
    if t ∈ ts then (true, some (ts.erase t)) else (false, some ts)

/-
Graph-shape classifier, translated from graph_analysis.py
determine_graph_shape.  The source builds a networkx DiGraph (node set and
directed-edge set without duplicates, in insertion order) from the triples
(subject -> object) and an undirected copy of it; the networkx primitives
used by the source (degrees, neighbors, is_tree as connectivity plus the
edge count being one less than the node count, connected components) are
modelled below on explicit node and edge lists.
-/

/-- Insert a node if absent, keeping insertion order. -/
def addNode (ns : List String) (n : String) : List String :=
  if n ∈ ns then ns else ns ++ [n]

/-- DiGraph node list: for each triple add subject then object. -/
def graphNodes (triples : List Triple) : List String :=
  triples.foldl (fun ns t => addNode (addNode ns t.subject) t.object) []

/-- DiGraph directed edge list: add_edge(subject, object), duplicates
collapse as in a networkx DiGraph. -/
def graphEdges (triples : List Triple) : List (String × String) :=
  triples.foldl
    (fun es t => if (t.subject, t.object) ∈ es then es else es ++ [(t.subject, t.object)]) []

/-- Directed out-degree of a node. -/
def outDeg (es : List (String × String)) (n : String) : Nat :=
  (es.filter (fun e => e.1 = n)).length

/-- Directed in-degree of a node. -/
def inDeg (es : List (String × String)) (n : String) : Nat :=
  (es.filter (fun e => e.2 = n)).length

/-- Edge list of G.to_undirected(): a directed edge is kept unless the same
unordered pair is already present. -/
def undEdges (des : List (String × String)) : List (String × String) :=
  des.foldl
    (fun es e => if e ∈ es ∨ (e.2, e.1) ∈ es then es else es ++ [e]) []

/-- Undirected degree (a self-loop counts twice, as in networkx). -/
def undDeg (es : List (String × String)) (n : String) : Nat :=
  es.foldl (fun acc e =>
    acc + (if e.1 = n then 1 else 0) + (if e.2 = n then 1 else 0)) 0

/-- Neighbors of a node in the undirected graph, in edge order. -/
def undNeighbors (es : List (String × String)) (n : String) : List String :=
  es.foldl (fun acc e =>
    if e.1 = n then addNode acc e.2
    else if e.2 = n then addNode acc e.1 else acc) []

/-- One breadth step of reachability: add all neighbors of members. -/
def reachStep (es : List (String × String)) (acc : List String) : List String :=
  acc.foldl (fun a n => (undNeighbors es n).foldl addNode a) acc

def reachIter (es : List (String × String)) : Nat → List String → List String
  | 0, acc => acc
  | n + 1, acc => reachIter es n (reachStep es acc)

/-- Nodes reachable from start in the undirected graph (the iteration count
bounds path length, so the node count of the graph is always enough). -/
def reachable (es : List (String × String)) (start : String) (fuel : Nat) : List String :=
  reachIter es fuel [start]

/-- Models nx.is_connected on the undirected graph (never consulted by the
source on an empty graph, since the shape function returns earlier). -/
def isConnected (ns : List String) (es : List (String × String)) : Bool :=
  match ns with
  | [] => true
  | n0 :: _ => ns.all (fun n => n ∈ reachable es n0 ns.length)

/-- Models nx.is_tree on the undirected graph: connected with exactly one
edge less than nodes. -/
def isTreeUnd (ns : List String) (es : List (String × String)) : Bool :=
  es.length + 1 = ns.length && isConnected ns es

/-- The stem count of the flower check: remove the hub, then for each hub
neighbor take its connected component; a component of more than one node
counts as a stem when its induced subgraph is a simple path (every degree
at most 2 and exactly two nodes of degree 1). -/
def stemCount (ns : List String) (es : List (String × String)) (hub : String) : Nat :=
  let hNs := ns.filter (fun n => n ≠ hub)
  let hEs := es.filter (fun e => e.1 ≠ hub ∧ e.2 ≠ hub)
  (undNeighbors es hub).foldl (fun acc nb =>
    let comp := hNs.filter (fun n => n ∈ reachable hEs nb hNs.length)
    if comp.length > 1 then
      let sEs := hEs.filter (fun e => e.1 ∈ comp ∧ e.2 ∈ comp)
      if comp.all (fun n => undDeg sEs n ≤ 2) &&
          (comp.filter (fun n => undDeg sEs n = 1)).length = 2 then
        acc + 1
      else acc
    else acc) 0

/-- determine_graph_shape from graph_analysis.py: Empty and Single-triple
short-circuits, then the Cycle, Path, Star, Tree (with Path and Flower
sub-cases) and Complex checks in source order. -/
def determineGraphShape (triples : List Triple) : String :=
  if triples = [] then "Empty"
  else if triples.length = 1 then "Single-triple"
  else
    let ns := graphNodes triples
    let es := graphEdges triples
    let ues := undEdges es
    if ns.length = triples.length &&
        ns.all (fun n => outDeg es n = 1 && inDeg es n = 1) then "Cycle"
    else if ns.all (fun n => outDeg es n ≤ 1 && inDeg es n ≤ 1) &&
        (ns.filter (fun n => outDeg es n + inDeg es n = 1)).length = 2 then "Path"
    else if (ns.filter (fun n => undDeg ues n > 1)).length = 1 &&
        ns.all (fun n => undDeg ues n = 1 || undDeg ues n > 2) then "Star"
    else if isTreeUnd ns ues then
      let hubs := ns.filter (fun n => undDeg ues n > 2)
      if hubs = [] then "Path"
      else
        match hubs with
        | [hub] => if stemCount ns ues hub = 1 then "Flower" else "Tree"
        | _ => "Tree"
    else "Complex"

/-
Serializer, translated from query.py SPARQLQuery.to_query_string and the
_serialize_* helpers.  Serializing a Python None slot raises ValueError in
_serialize_where_clause, hence the Except result.
-/

/-- Python "  " * indent. -/
def indentStr : Nat → String
  | 0 => ""
  | n + 1 => "  " ++ indentStr n

/-- Python " ".join and friends. -/
def joinSep (sep : String) : List String → String
  | [] => ""
  | [x] => x
  | x :: xs => x ++ sep ++ joinSep sep xs

/-- Split a character list at newlines (Python str.split of a newline). -/
def splitLinesAux (cur : List Char) : List Char → List (List Char)
  | [] => [cur.reverse]
  | c :: cs => if c = '\n' then cur.reverse :: splitLinesAux [] cs else splitLinesAux (c :: cur) cs

def splitLines (s : String) : List String :=
  (splitLinesAux [] s.data).map String.mk

/-- The aggregation projection term rendered by to_query_string. -/
def aggTerm (a : Agg) : String :=
  let dk := if a.aggDistinct then "DISTINCT " else ""
  if a.aggVariable = "*" && a.aggFunction = "COUNT" then
    "(" ++ a.aggFunction ++ "(" ++ dk ++ "*) AS " ++ a.aggAlias ++ ")"
  else
    "(" ++ a.aggFunction ++ "(" ++ dk ++ a.aggVariable ++ ") AS " ++ a.aggAlias ++ ")"

/-- The ORDER BY terms rendered by to_query_string: one direction for all
variables, or per-variable directions with ASC as the fallback when the
flag list is shorter than the variable list. -/
def orderByTerms (ob : OrderBySpec) : List String :=
  match ob.obAscending with
  | .one b =>
    let dir := if b then "ASC" else "DESC"
    ob.obVariables.map (fun v => dir ++ "(" ++ v ++ ")")
  | .many bs =>
    (List.range ob.obVariables.length).map (fun i =>
      match ob.obVariables[i]?, bs[i]? with
      | some v, some b => (if b then "ASC" else "DESC") ++ "(" ++ v ++ ")"
      | some v, none => "ASC(" ++ v ++ ")"
      | none, _ => "")

mutual
/-- SPARQLQuery._serialize_where_clause: dispatch on the clause kind; a list
serializes its elements in order with no separator; an unknown kind (the
Python None slot) raises ValueError. -/
def serializeWhereClause : Pattern → Nat → Except String String
  | .bgp ts fs, ind => .ok (serializeBGP ts fs ind)
  | .unionOp l r, ind => do
    let ls ← serializeWhereClause l (ind + 1)
    let rs ← serializeWhereClause r (ind + 1)
    return indentStr ind ++ "\x7b\n" ++ ls ++ indentStr ind ++ "\x7d UNION \x7b\n" ++ rs
      ++ indentStr ind ++ "\x7d\n"
  | .optionalOp p, ind => do
    let s ← serializeWhereClause p (ind + 1)
    return indentStr ind ++ "OPTIONAL \x7b\n" ++ s ++ indentStr ind ++ "\x7d\n"
  | .subquery q, ind => do
    let s ← toQueryString q
    let indented := joinSep "\n" ((splitLines s).map (fun line => indentStr ind ++ line))
    return indentStr ind ++ "\x7b\n" ++ indented ++ "\n" ++ indentStr ind ++ "\x7d\n"
  | .group p fs, ind => do
    let s ← serializeWhereClause p (ind + 1)
    return indentStr ind ++ "\x7b\n" ++ s
      ++ String.join (fs.map (fun f => indentStr (ind + 1) ++ "FILTER(" ++ f ++ ")\n"))
      ++ indentStr ind ++ "\x7d\n"
  | .seq xs, ind => serializeSeq xs ind
  | .pnull, _ => .error "ValueError: Unknown clause type: NoneType"

def serializeSeq : List Pattern → Nat → Except String String
  | [], _ => .ok ""
  | x :: xs, ind => do
    let s ← serializeWhereClause x ind
    let rest ← serializeSeq xs ind
    return s ++ rest

/-- SPARQLQuery._serialize_bgp: one "s p o ." line per triple, then one
FILTER line per scoped filter. -/
def serializeBGP (ts : List Triple) (fs : List String) (ind : Nat) : String :=
  String.join (ts.map (fun t =>
    indentStr ind ++ t.subject ++ " " ++ t.predicate ++ " " ++ t.object ++ " .\n"))
  ++ String.join (fs.map (fun f => indentStr ind ++ "FILTER(" ++ f ++ ")\n"))

/-- SPARQLQuery.to_query_string: SELECT line (with DISTINCT, plain
projection variables and aggregation terms), optional FROM, the braced
WHERE body with top-level filters, then GROUP BY, HAVING, ORDER BY, LIMIT
and OFFSET in that order. -/
def toQueryString : SQuery → Except String String
  | .mk pv w f h ob gb lim off gr dist ag => do
    let distinct := if dist then "DISTINCT " else ""
    let projectionStr :=
      if ag ≠ [] then
        joinSep " " ((if pv ≠ ["*"] then pv else []) ++ ag.map aggTerm)
      else joinSep " " pv
    let mut q := "SELECT " ++ distinct ++ projectionStr ++ "\n"
    match gr with
    | some g => q := q ++ "FROM <" ++ g ++ ">\n"
    | none => pure ()
    q := q ++ "WHERE \x7b\n"
    let body ← serializeWhereClause w 1
    q := q ++ body
    match f with
    | some fl =>
      if fl ≠ [] then
        q := q ++ String.join (fl.map (fun fe => "  FILTER(" ++ fe ++ ")\n"))
    | none => pure ()
    q := q ++ "\x7d"
    match gb with
    | some vars =>
      if vars ≠ [] then
        q := q ++ "\nGROUP BY " ++ joinSep " " vars
    | none => pure ()
    match h with
    | some hl =>
      if hl ≠ [] then
        q := q ++ String.join (hl.map (fun he => "\nHAVING(" ++ he ++ ")"))
    | none => pure ()
    match ob with
    | some obSpec => q := q ++ "\nORDER BY " ++ joinSep " " (orderByTerms obSpec)
    | none => pure ()
    match lim with
    | some l => q := q ++ "\nLIMIT " ++ toString l
    | none => pure ()
    match off with
    | some o => q := q ++ "\nOFFSET " ++ toString o
    | none => pure ()
    return q
end

/-
Grammar parser, translated from parser.py.  The pyparsing grammar in
SPARQLParser._define_grammar is modelled as a character-level recursive
descent with ordered choice (pyparsing MatchFirst with packrat behaves as
PEG ordered choice, And sequences fail as a whole and alternatives restart
from the original position).  Tokens skip leading whitespace; Combine-d
tokens (variable, iri, prefixed name) require adjacency.  The recursive
productions take a fuel argument; the entry point supplies fuel larger
than the input length, which bounds the recursion depth.
-/

def isWsChar (c : Char) : Bool := c = ' ' || c = '\t' || c = '\n' || c = '\r'

def skipWs : List Char → List Char
  | [] => []
  | c :: cs => if isWsChar c then skipWs cs else c :: cs

def isAlphaChar (c : Char) : Bool :=
  ('a' ≤ c && c ≤ 'z') || ('A' ≤ c && c ≤ 'Z')

def isDigitChar (c : Char) : Bool := '0' ≤ c && c ≤ '9'

def isAlnumChar (c : Char) : Bool := isAlphaChar c || isDigitChar c

/-- Body characters of Word(alphanums + '_'). -/
def identBodyChar (c : Char) : Bool := isAlnumChar c || c = '_'

/-- Default identifier characters bounding a pyparsing Keyword. -/
def keywordBody (c : Char) : Bool := isAlnumChar c || c = '_' || c = '$'

/-- Longest run of characters satisfying the predicate. -/
def spanPred (p : Char → Bool) : List Char → (List Char × List Char)
  | [] => ([], [])
  | c :: cs =>
    if p c then
      let r := spanPred p cs
      (c :: r.1, r.2)
    else ([], c :: cs)

def expectChars : List Char → List Char → Option (List Char)
  | [], cs => some cs
  | _ :: _, [] => none
  | e :: es, c :: cs => if c = e then expectChars es cs else none

/-- pyparsing Literal: skip whitespace, then match the exact text. -/
def pTok (s : String) (cs : List Char) : Option (List Char) :=
  expectChars s.data (skipWs cs)

/-- pyparsing Keyword: Literal followed by a non-identifier character. -/
def pKeyword (s : String) (cs : List Char) : Option (List Char) :=
  match pTok s cs with
  | none => none
  | some rest =>
    match rest with
    | [] => some rest
    | c :: _ => if keywordBody c then none else some rest

/-- pyparsing Word(initChars, bodyChars): maximal munch, no whitespace skip
(used inside Combine). -/
def pWordRaw (hd bd : Char → Bool) (cs : List Char) : Option (String × List Char) :=
  match cs with
  | [] => none
  | c :: rest =>
    if hd c then
      let r := spanPred bd rest
      some (String.mk (c :: r.1), r.2)
    else none

/-- variable := Combine('?' + Word(alphas, alphanums + '_')). -/
def pVariable (cs : List Char) : Option (String × List Char) :=
  match skipWs cs with
  | '?' :: rest =>
    match pWordRaw isAlphaChar identBodyChar rest with
    | some (w, rest2) => some ("?" ++ w, rest2)
    | none => none
  | _ => none

/-- full_iri := Combine('<' + CharsNotIn('>') + '>'). -/
def pFullIri (cs : List Char) : Option (String × List Char) :=
  match skipWs cs with
  | '<' :: rest =>
    let r := spanPred (fun c => c ≠ '>') rest
    if r.1 = [] then none
    else
      match r.2 with
      | '>' :: rest2 => some ("<" ++ String.mk r.1 ++ ">", rest2)
      | _ => none
  | _ => none

/-- prefixed_name := Combine(Word(alphas) + ':' + Word(alphanums + '_'))
or Combine(':' + Word(alphanums + '_')). -/
def pPrefixedName (cs : List Char) : Option (String × List Char) :=
  let cs0 := skipWs cs
  match pWordRaw isAlphaChar isAlphaChar cs0 with
  | some (ns, rest) =>
    (match rest with
     | ':' :: rest2 =>
       match pWordRaw identBodyChar identBodyChar rest2 with
       | some (l, rest3) => some (ns ++ ":" ++ l, rest3)
       | none => none
     | _ =>
       match cs0 with
       | ':' :: rest2 =>
         match pWordRaw identBodyChar identBodyChar rest2 with
         | some (l, rest3) => some (":" ++ l, rest3)
         | none => none
       | _ => none)
  | none =>
    match cs0 with
    | ':' :: rest2 =>
      match pWordRaw identBodyChar identBodyChar rest2 with
      | some (l, rest3) => some (":" ++ l, rest3)
      | none => none
    | _ => none

def pIri (cs : List Char) : Option (String × List Char) :=
  match pFullIri cs with
  | some r => some r
  | none => pPrefixedName cs

/-- string_literal := QuotedString('"') | QuotedString("'"): the quotes are
stripped from the token, and the default QuotedString rejects newlines. -/
def pStringLit (cs : List Char) : Option (String × List Char) :=
  match skipWs cs with
  | '"' :: rest =>
    let r := spanPred (fun c => c ≠ '"' && c ≠ '\n') rest
    (match r.2 with
     | '"' :: rest2 => some (String.mk r.1, rest2)
     | _ => none)
  | '\'' :: rest =>
    let r := spanPred (fun c => c ≠ '\'' && c ≠ '\n') rest
    (match r.2 with
     | '\'' :: rest2 => some (String.mk r.1, rest2)
     | _ => none)
  | _ => none

/-- numeric_literal := pyparsing_common.number: sign, digits, optional
fraction and exponent.  The matched text is kept as the term (the source
converts to a Python int or float whose str may normalize the spelling;
no claim exercises numeric terms). -/
def pNumber (cs : List Char) : Option (String × List Char) :=
  let cs0 := skipWs cs
  let (sign, cs1) :=
    match cs0 with
    | '-' :: rest => (['-'], rest)
    | '+' :: rest => (['+'], rest)
    | _ => ([], cs0)
  let ip := spanPred isDigitChar cs1
  let (frac, cs2) :=
    match ip.2 with
    | '.' :: rest =>
      let fp := spanPred isDigitChar rest
      ('.' :: fp.1, fp.2)
    | _ => ([], ip.2)
  if ip.1 = [] && frac = [] then none
  else
    let (expPart, cs3) :=
      match cs2 with
      | 'e' :: rest | 'E' :: rest =>
        (match rest with
         | '-' :: r2 =>
           let ep := spanPred isDigitChar r2
           if ep.1 = [] then ([], cs2) else ('e' :: '-' :: ep.1, ep.2)
         | '+' :: r2 =>
           let ep := spanPred isDigitChar r2
           if ep.1 = [] then ([], cs2) else ('e' :: '+' :: ep.1, ep.2)
         | _ =>
           let ep := spanPred isDigitChar rest
           if ep.1 = [] then ([], cs2) else ('e' :: ep.1, ep.2))
      | _ => ([], cs2)
    some (String.mk (sign ++ ip.1 ++ frac ++ expPart), cs3)

/-- boolean_literal := Keyword('true') | Keyword('false'). -/
def pBool (cs : List Char) : Option (String × List Char) :=
  match pKeyword "true" cs with
  | some rest => some ("true", rest)
  | none =>
    match pKeyword "false" cs with
    | some rest => some ("false", rest)
    | none => none

/-- term in subject or predicate position := variable | iri. -/
def pTermSP (cs : List Char) : Option (String × List Char) :=
  match pVariable cs with
  | some r => some r
  | none => pIri cs

/-- term in object position := variable | iri | string | number | boolean. -/
def pTermO (cs : List Char) : Option (String × List Char) :=
  match pVariable cs with
  | some r => some r
  | none =>
    match pIri cs with
    | some r => some r
    | none =>
      match pStringLit cs with
      | some r => some r
      | none =>
        match pNumber cs with
        | some r => some r
        | none => pBool cs

/-- triple_pattern := term term term '.'. -/
def pTriple (cs : List Char) : Option (Triple × List Char) :=
  match pTermSP cs with
  | none => none
  | some (s, r1) =>
    match pTermSP r1 with
    | none => none
    | some (p, r2) =>
      match pTermO r2 with
      | none => none
      | some (o, r3) =>
        match pTok "." r3 with
        | none => none
        | some r4 => some (⟨s, p, o⟩, r4)

/-- bgp := OneOrMore(triple_pattern), greedy. -/
def pTriples (fuel : Nat) (cs : List Char) : Option (List Triple × List Char) :=
  match fuel with
  | 0 => none
  | f + 1 =>
    match pTriple cs with
    | none => none
    | some (t, rest) =>
      match pTriples f rest with
      | some (ts, rest2) => some (t :: ts, rest2)
      | none => some ([t], rest)

/-- Comparison operators (pyparsing oneOf matches the longest first). -/
def pCompOp (cs : List Char) : Option (String × List Char) :=
  match pTok "<=" cs with
  | some r => some ("<=", r)
  | none =>
    match pTok ">=" cs with
    | some r => some (">=", r)
    | none =>
      match pTok "!=" cs with
      | some r => some ("!=", r)
      | none =>
        match pTok "=" cs with
        | some r => some ("=", r)
        | none =>
          match pTok "<" cs with
          | some r => some ("<", r)
          | none =>
            match pTok ">" cs with
            | some r => some (">", r)
            | none => none

def pArithOp (cs : List Char) : Option (String × List Char) :=
  match pTok "+" cs with
  | some r => some ("+", r)
  | none =>
    match pTok "-" cs with
    | some r => some ("-", r)
    | none =>
      match pTok "*" cs with
      | some r => some ("*", r)
      | none =>
        match pTok "/" cs with
        | some r => some ("/", r)
        | none => none

mutual
/-- The FILTER expression grammar: base terms, parenthesized expressions,
arithmetic chains and comparisons. -/
inductive FExpr where
  | fcmp (l : FArith) (op : String) (r : FArith)
  | farith (a : FArith)

inductive FArith where
  | fa (head : FBase) (ops : List (String × FBase))

inductive FBase where
  | fterm (s : String)
  | fparen (e : FExpr)
end

mutual
/-- expression := comparison_expr | arithmetic_expr. -/
def pFExpr : Nat → List Char → Option (FExpr × List Char)
  | 0, _ => none
  | f + 1, cs =>
    match pFCmp f cs with
    | some r => some r
    | none =>
      match pFArith f cs with
      | some (a, rest) => some (.farith a, rest)
      | none => none

def pFCmp : Nat → List Char → Option (FExpr × List Char)
  | 0, _ => none
  | f + 1, cs =>
    match pFArith f cs with
    | none => none
    | some (l, r1) =>
      match pCompOp r1 with
      | none => none
      | some (op, r2) =>
        match pFArith f r2 with
        | none => none
        | some (r, r3) => some (.fcmp l op r, r3)

def pFArith : Nat → List Char → Option (FArith × List Char)
  | 0, _ => none
  | f + 1, cs =>
    match pFBase f cs with
    | none => none
    | some (b, r1) =>
      match pFAOps f r1 with
      | some (ops, r2) => some (.fa b ops, r2)
      | none => some (.fa b [], r1)

def pFAOps : Nat → List Char → Option (List (String × FBase) × List Char)
  | 0, _ => none
  | f + 1, cs =>
    match pArithOp cs with
    | none => some ([], cs)
    | some (op, r1) =>
      match pFBase f r1 with
      | none => some ([], cs)
      | some (b, r2) =>
        match pFAOps f r2 with
        | some (ops, r3) => some ((op, b) :: ops, r3)
        | none => some ([(op, b)], r2)

/-- base_expr := parenthesized | expr_term. -/
def pFBase : Nat → List Char → Option (FBase × List Char)
  | 0, _ => none
  | f + 1, cs =>
    match pTok "(" cs with
    | some r1 =>
      (match pFExpr f r1 with
       | some (e, r2) =>
         (match pTok ")" r2 with
          | some r3 => some (.fparen e, r3)
          | none =>
            match pTermO cs with
            | some (t, rest) => some (.fterm t, rest)
            | none => none)
       | none =>
         match pTermO cs with
         | some (t, rest) => some (.fterm t, rest)
         | none => none)
    | none =>
      match pTermO cs with
      | some (t, rest) => some (.fterm t, rest)
      | none => none
end

/-- filter_pattern := FILTER '(' expression ')'. -/
def pFilterPat (fuel : Nat) (cs : List Char) : Option (FExpr × List Char) :=
  match pTok "FILTER" cs with
  | none => none
  | some r1 =>
    match pTok "(" r1 with
    | none => none
    | some r2 =>
      match pFExpr fuel r2 with
      | none => none
      | some (e, r3) =>
        match pTok ")" r3 with
        | none => none
        | some r4 => some (e, r4)

mutual
/-- SPARQLParser._format_filter_expression on the expression tree:
comparisons render as "left op right", arithmetic chains as the head
followed by "op operand" pieces, parenthesized expressions keep their
parentheses, plain terms render as themselves (the source walks the raw
token structure; this reproduces it for expressions whose comparison
operands are single terms or parenthesized expressions). -/
def formatFExpr : FExpr → String
  | .fcmp l op r => formatFArith l ++ " " ++ op ++ " " ++ formatFArith r
  | .farith a => formatFArith a

def formatFArith : FArith → String
  | .fa b [] => formatFBase b
  | .fa b ops => formatFBase b ++ " " ++ joinSep " " (formatFAOps ops)

def formatFAOps : List (String × FBase) → List String
  | [] => []
  | (op, b) :: rest => (op ++ " " ++ formatFBase b) :: formatFAOps rest

def formatFBase : FBase → String
  | .fterm s => s
  | .fparen e => "(" ++ formatFExpr e ++ ")"
end

/-- Aggregation function names (oneOf 'COUNT SUM MIN MAX AVG'). -/
def pAggFn (cs : List Char) : Option (String × List Char) :=
  match pTok "COUNT" cs with
  | some r => some ("COUNT", r)
  | none =>
    match pTok "SUM" cs with
    | some r => some ("SUM", r)
    | none =>
      match pTok "MIN" cs with
      | some r => some ("MIN", r)
      | none =>
        match pTok "MAX" cs with
        | some r => some ("MAX", r)
        | none =>
          match pTok "AVG" cs with
          | some r => some ("AVG", r)
          | none => none

/-- Operand atoms of HAVING expressions: aggregate-function terms or plain
expression terms. -/
inductive HBase where
  | hagg (fn : String) (dist : Bool) (star : Bool) (v : String)
  | hterm (s : String)

/-- Arithmetic chain of HAVING operands. -/
inductive HArith where
  | ha (head : HBase) (ops : List (String × HBase))

mutual
/-- Terms of a HAVING logical chain: comparisons or parenthesized
sub-expressions. -/
inductive HTerm where
  | hcmp (l : HArith) (op : String) (r : HArith)
  | hparen (e : HExpr)

/-- having_expression := logical chain | comparison | arithmetic. -/
inductive HExpr where
  | hlogic (head : HTerm) (rest : List (String × HTerm))
  | hcmpE (l : HArith) (op : String) (r : HArith)
  | harithE (a : HArith)
end

/-- having_agg_function := FUNC '(' [DISTINCT] (variable | '*') ')'. -/
def pHAgg (cs : List Char) : Option (HBase × List Char) :=
  match pAggFn cs with
  | none => none
  | some (fn, r1) =>
    match pTok "(" r1 with
    | none => none
    | some r2 =>
      let (dist, r3) :=
        match pKeyword "DISTINCT" r2 with
        | some r => (true, r)
        | none => (false, r2)
      match pTok "*" r3 with
      | some r4 =>
        (match pTok ")" r4 with
         | some r5 => some (.hagg fn dist true "*", r5)
         | none => none)
      | none =>
        match pVariable r3 with
        | none => none
        | some (v, r4) =>
          match pTok ")" r4 with
          | some r5 => some (.hagg fn dist false v, r5)
          | none => none

/-- having_expr_term := having_agg_function | expr_term. -/
def pHBase (cs : List Char) : Option (HBase × List Char) :=
  match pHAgg cs with
  | some r => some r
  | none =>
    match pTermO cs with
    | some (t, rest) => some (.hterm t, rest)
    | none => none

def pHAOps (fuel : Nat) (cs : List Char) : Option (List (String × HBase) × List Char) :=
  match fuel with
  | 0 => none
  | f + 1 =>
    match pArithOp cs with
    | none => some ([], cs)
    | some (op, r1) =>
      match pHBase r1 with
      | none => some ([], cs)
      | some (b, r2) =>
        match pHAOps f r2 with
        | some (ops, r3) => some ((op, b) :: ops, r3)
        | none => some ([(op, b)], r2)

/-- having_arithmetic_expr := having_base (arith_op having_base)*. -/
def pHArith (fuel : Nat) (cs : List Char) : Option (HArith × List Char) :=
  match pHBase cs with
  | none => none
  | some (b, r1) =>
    match pHAOps fuel r1 with
    | some (ops, r2) => some (.ha b ops, r2)
    | none => some (.ha b [], r1)

/-- having_comparison_expr := having_arith comp_op having_arith. -/
def pHCmp (fuel : Nat) (cs : List Char) : Option ((HArith × String × HArith) × List Char) :=
  match pHArith fuel cs with
  | none => none
  | some (l, r1) =>
    match pCompOp r1 with
    | none => none
    | some (op, r2) =>
      match pHArith fuel r2 with
      | none => none
      | some (r, r3) => some ((l, op, r), r3)

/-- logical_op := oneOf('AND OR && ||'). -/
def pLogOp (cs : List Char) : Option (String × List Char) :=
  match pTok "AND" cs with
  | some r => some ("AND", r)
  | none =>
    match pTok "OR" cs with
    | some r => some ("OR", r)
    | none =>
      match pTok "&&" cs with
      | some r => some ("&&", r)
      | none =>
        match pTok "||" cs with
        | some r => some ("||", r)
        | none => none

mutual
/-- having_term := having_comparison_expr | having_parenthesized. -/
def pHTerm : Nat → List Char → Option (HTerm × List Char)
  | 0, _ => none
  | f + 1, cs =>
    match pHCmp f cs with
    | some ((l, op, r), rest) => some (.hcmp l op r, rest)
    | none =>
      match pTok "(" cs with
      | none => none
      | some r1 =>
        match pHExpr f r1 with
        | none => none
        | some (e, r2) =>
          match pTok ")" r2 with
          | some r3 => some (.hparen e, r3)
          | none => none

def pHLogicOps : Nat → List Char → Option (List (String × HTerm) × List Char)
  | 0, _ => none
  | f + 1, cs =>
    match pLogOp cs with
    | none => some ([], cs)
    | some (op, r1) =>
      match pHTerm f r1 with
      | none => some ([], cs)
      | some (t, r2) =>
        match pHLogicOps f r2 with
        | some (ops, r3) => some ((op, t) :: ops, r3)
        | none => some ([(op, t)], r2)

/-- having_expression := having_logical_expr | having_comparison_expr |
having_arithmetic_expr. -/
def pHExpr : Nat → List Char → Option (HExpr × List Char)
  | 0, _ => none
  | f + 1, cs =>
    match pHTerm f cs with
    | some (t, r1) =>
      (match pHLogicOps f r1 with
       | some (ops, r2) => some (.hlogic t ops, r2)
       | none => some (.hlogic t [], r1))
    | none =>
      match pHCmp f cs with
      | some ((l, op, r), rest) => some (.hcmpE l op r, rest)
      | none =>
        match pHArith f cs with
        | some (a, rest) => some (.harithE a, rest)
        | none => none
end

/-- SPARQLParser._direct_format_having_part on aggregate atoms: an
aggregation renders as FUNC(second token), where the second token is the
DISTINCT keyword itself when present (reproducing the source, which indexes
the raw token list), else the variable or star. -/
def fmtHBase : HBase → String
  | .hagg fn dist star v => fn ++ "(" ++ (if dist then "DISTINCT" else if star then "*" else v) ++ ")"
  | .hterm s => s

def fmtHArith : HArith → String
  | .ha b [] => fmtHBase b
  | .ha b ops => fmtHBase b ++ " " ++ joinSep " " (ops.map (fun p => p.1 ++ " " ++ fmtHBase p.2))

/-- Wrap in parentheses when the rendered part contains a space and is not
already parenthesized, as the chain loop of the source does. -/
def parenWrap (s : String) : String :=
  if (' ' ∈ s.data) && !(s.data.head? = some '(' && s.data.getLast? = some ')') then
    "(" ++ s ++ ")"
  else s

mutual
/-- SPARQLParser._direct_having_formatter on the HAVING tree: a single
comparison (possibly parenthesized) renders without outer parentheses; a
logical chain renders its terms joined by the logical operators with both
sides parenthesized when they contain spaces (reproducing the source on the
shapes its tests exercise; no claim depends on HAVING text). -/
def fmtHExpr : HExpr → String
  | .hlogic t [] => fmtHTermBare t
  | .hlogic t ops => fmtHChain (parenWrap (fmtHTermBare t)) ops
  | .hcmpE l op r => fmtHArith l ++ " " ++ op ++ " " ++ fmtHArith r
  | .harithE a => fmtHArith a

def fmtHChain (acc : String) : List (String × HTerm) → String
  | [] => acc
  | (op, t) :: rest => fmtHChain (acc ++ " " ++ op ++ " " ++ parenWrap (fmtHTermBare t)) rest

/-- A single chain term without forced outer parentheses: a parenthesized
simple comparison is unwrapped. -/
def fmtHTermBare : HTerm → String
  | .hcmp l op r => fmtHArith l ++ " " ++ op ++ " " ++ fmtHArith r
  | .hparen e => fmtHParen e

def fmtHParen : HExpr → String
  | .hlogic t [] => fmtHTermBare t
  | .hlogic t ops => "(" ++ fmtHChain (parenWrap (fmtHTermBare t)) ops ++ ")"
  | .hcmpE l op r => fmtHArith l ++ " " ++ op ++ " " ++ fmtHArith r
  | .harithE a => fmtHArith a
end

/-- One matched element of a group_graph_pattern scope, in textual order:
a bgp (its triples), a union (the two braced scopes), an optional (its
braced scope), a standalone braced scope, or a filter. -/
inductive GItem where
  | gBgp (ts : List Triple)
  | gUnion (l r : List GItem)
  | gOptional (inner : List GItem)
  | gBraced (inner : List GItem)
  | gFilter (e : FExpr)

mutual
/-- braced_pattern := '\x7b' group_graph_pattern '\x7d'. -/
def pBraced : Nat → List Char → Option (List GItem × List Char)
  | 0, _ => none
  | f + 1, cs =>
    match pTok "\x7b" cs with
    | none => none
    | some r1 =>
      match pGGP f r1 with
      | none => none
      | some (items, r2) =>
        match pTok "\x7d" r2 with
        | some r3 => some (items, r3)
        | none => none

/-- graph_pattern_not_triples := union | optional | braced | filter, ordered
choice restarting from the original position. -/
def pGPNT : Nat → List Char → Option (GItem × List Char)
  | 0, _ => none
  | f + 1, cs =>
    match
      (match pBraced f cs with
       | none => none
       | some (l, r1) =>
         match pTok "UNION" r1 with
         | none => none
         | some r2 =>
           match pBraced f r2 with
           | none => none
           | some (r, r3) => some (GItem.gUnion l r, r3)) with
    | some res => some res
    | none =>
      match
        (match pTok "OPTIONAL" cs with
         | none => none
         | some r1 =>
           match pBraced f r1 with
           | none => none
           | some (inner, r2) => some (GItem.gOptional inner, r2)) with
      | some res => some res
      | none =>
        match pBraced f cs with
        | some (inner, r1) => some (GItem.gBraced inner, r1)
        | none =>
          match pFilterPat f cs with
          | some (e, r1) => some (GItem.gFilter e, r1)
          | none => none

/-- group_graph_pattern := Optional(bgp) + ZeroOrMore(gpnt + Optional(bgp)). -/
def pGGP : Nat → List Char → Option (List GItem × List Char)
  | 0, _ => none
  | f + 1, cs =>
    match pTriples f cs with
    | some (ts, r1) => pGGPLoop f [GItem.gBgp ts] r1
    | none => pGGPLoop f [] cs

def pGGPLoop : Nat → List GItem → List Char → Option (List GItem × List Char)
  | 0, _, _ => none
  | f + 1, acc, cs =>
    match pGPNT f cs with
    | none => some (acc, cs)
    | some (it, r1) =>
      match pTriples f r1 with
      | some (ts, r2) => pGGPLoop f (acc ++ [it, GItem.gBgp ts]) r2
      | none => pGGPLoop f (acc ++ [it]) r1
end

/-- Projection elements of the SELECT clause, in order: plain variables and
aggregation expressions. -/
inductive ProjItem where
  | pv (v : String)
  | pagg (fn : String) (dist : Bool) (star : Bool) (v : String) (al : String)

/-- agg_expression := '(' FUNC '(' [DISTINCT] (variable | '*') ')' AS
variable ')'. -/
def pAggExpr (cs : List Char) : Option (ProjItem × List Char) :=
  match pTok "(" cs with
  | none => none
  | some r1 =>
    match pAggFn r1 with
    | none => none
    | some (fn, r2) =>
      match pTok "(" r2 with
      | none => none
      | some r3 =>
        let (dist, r4) :=
          match pKeyword "DISTINCT" r3 with
          | some r => (true, r)
          | none => (false, r3)
        let starVar :=
          match pTok "*" r4 with
          | some r5 => some (true, "*", r5)
          | none =>
            match pVariable r4 with
            | some (v, r5) => some (false, v, r5)
            | none => none
        match starVar with
        | none => none
        | some (star, v, r5) =>
          match pTok ")" r5 with
          | none => none
          | some r6 =>
            match pKeyword "AS" r6 with
            | none => none
            | some r7 =>
              match pVariable r7 with
              | none => none
              | some (al, r8) =>
                match pTok ")" r8 with
                | some r9 => some (.pagg fn dist star v al, r9)
                | none => none

/-- projection := OneOrMore(agg_expression | variable). -/
def pProjItems (fuel : Nat) (cs : List Char) : Option (List ProjItem × List Char) :=
  match fuel with
  | 0 => none
  | f + 1 =>
    let one :=
      match pAggExpr cs with
      | some r => some r
      | none =>
        match pVariable cs with
        | some (v, rest) => some (ProjItem.pv v, rest)
        | none => none
    match one with
    | none => none
    | some (it, r1) =>
      match pProjItems f r1 with
      | some (its, r2) => some (it :: its, r2)
      | none => some ([it], r1)

/-- Result of the SELECT clause: DISTINCT flag, select-all flag, projection
elements. -/
structure SelectParse where
  spDistinct : Bool
  spAll : Bool
  spItems : List ProjItem

/-- select_clause := SELECT [DISTINCT] ('*' | projection). -/
def pSelect (fuel : Nat) (cs : List Char) : Option (SelectParse × List Char) :=
  match pTok "SELECT" cs with
  | none => none
  | some r1 =>
    let (dist, r2) :=
      match pTok "DISTINCT" r1 with
      | some r => (true, r)
      | none => (false, r1)
    match pTok "*" r2 with
    | some r3 => some (⟨dist, true, []⟩, r3)
    | none =>
      match pProjItems fuel r2 with
      | some (items, r3) => some (⟨dist, false, items⟩, r3)
      | none => none

/-- group_by_clause := GROUP BY OneOrMore(variable). -/
def pVars (fuel : Nat) (cs : List Char) : Option (List String × List Char) :=
  match fuel with
  | 0 => none
  | f + 1 =>
    match pVariable cs with
    | none => none
    | some (v, r1) =>
      match pVars f r1 with
      | some (vs, r2) => some (v :: vs, r2)
      | none => some ([v], r1)

def pGroupByClause (fuel : Nat) (cs : List Char) : Option (List String × List Char) :=
  match pTok "GROUP" cs with
  | none => none
  | some r1 =>
    match pTok "BY" r1 with
    | none => none
    | some r2 => pVars fuel r2

/-- order_by terms: a plain variable, or ASC/DESC with a parenthesized
variable. -/
inductive OBTerm where
  | obPlain (v : String)
  | obDir (asc : Bool) (v : String)

def pOBTerm (cs : List Char) : Option (OBTerm × List Char) :=
  let dir :=
    match pTok "ASC" cs with
    | some r => some (true, r)
    | none =>
      match pTok "DESC" cs with
      | some r => some (false, r)
      | none => none
  match dir with
  | some (asc, r1) =>
    (match pTok "(" r1 with
     | none =>
       (match pVariable cs with
        | some (v, rest) => some (.obPlain v, rest)
        | none => none)
     | some r2 =>
       match pVariable r2 with
       | none =>
         (match pVariable cs with
          | some (v, rest) => some (.obPlain v, rest)
          | none => none)
       | some (v, r3) =>
         match pTok ")" r3 with
         | some r4 => some (.obDir asc v, r4)
         | none =>
           match pVariable cs with
           | some (v2, rest) => some (.obPlain v2, rest)
           | none => none)
  | none =>
    match pVariable cs with
    | some (v, rest) => some (.obPlain v, rest)
    | none => none

def pOBTerms (fuel : Nat) (cs : List Char) : Option (List OBTerm × List Char) :=
  match fuel with
  | 0 => none
  | f + 1 =>
    match pOBTerm cs with
    | none => none
    | some (t, r1) =>
      match pOBTerms f r1 with
      | some (ts, r2) => some (t :: ts, r2)
      | none => some ([t], r1)

def pOrderByClause (fuel : Nat) (cs : List Char) : Option (List OBTerm × List Char) :=
  match pTok "ORDER" cs with
  | none => none
  | some r1 =>
    match pTok "BY" r1 with
    | none => none
    | some r2 => pOBTerms fuel r2

/-- having_pattern := HAVING '(' having_expression ')'. -/
def pHavingClause (fuel : Nat) (cs : List Char) : Option (HExpr × List Char) :=
  match pTok "HAVING" cs with
  | none => none
  | some r1 =>
    match pTok "(" r1 with
    | none => none
    | some r2 =>
      match pHExpr fuel r2 with
      | none => none
      | some (e, r3) =>
        match pTok ")" r3 with
        | some r4 => some (e, r4)
        | none => none

/-- The raw parse of a whole query: SELECT data, the WHERE scope items in
textual order, and the optional GROUP BY, HAVING and ORDER BY clauses. -/
structure QParse where
  qpDistinct : Bool
  qpAll : Bool
  qpProj : List ProjItem
  qpItems : List GItem
  qpGroupBy : Option (List String)
  qpHaving : Option HExpr
  qpOrderBy : Option (List OBTerm)

/-- query := select_clause where_clause [group_by] [having] [order_by]. -/
def pQuery (fuel : Nat) (cs : List Char) : Option (QParse × List Char) :=
  match pSelect fuel cs with
  | none => none
  | some (sel, r1) =>
    match pTok "WHERE" r1 with
    | none => none
    | some r2 =>
      match pTok "\x7b" r2 with
      | none => none
      | some r3 =>
        match pGGP fuel r3 with
        | none => none
        | some (items, r4) =>
          match pTok "\x7d" r4 with
          | none => none
          | some r5 =>
            let (gb, r6) :=
              match pGroupByClause fuel r5 with
              | some (vs, r) => (some vs, r)
              | none => (none, r5)
            let (hv, r7) :=
              match pHavingClause fuel r6 with
              | some (e, r) => (some e, r)
              | none => (none, r6)
            let (ob, r8) :=
              match pOrderByClause fuel r7 with
              | some (ts, r) => (some ts, r)
              | none => (none, r7)
            some (⟨sel.spDistinct, sel.spAll, sel.spItems, items, gb, hv, ob⟩, r8)

/-- SPARQLParser.parse with parseAll=True: the whole input must be consumed
up to trailing whitespace. -/
def parseQueryText (s : String) : Option QParse :=
  match pQuery (s.data.length + 64) s.data with
  | none => none
  | some (qp, rest) => if skipWs rest = [] then some qp else none

/-
Conversion stage, translated from parser.py convert_to_structured_dict.
A ParseResults scope exposes one named key per pattern kind present, in
first-occurrence order, whose value is the LAST match of that kind (the
grammar attaches results names without listAllMatches).  A scope with more
than one named key is converted to an ordered patterns list with one entry
per kind; a scope with exactly one pattern kind is converted through the
single-component path; an empty scope converts to Python None.  At the top
level the select/where names are always present, so the top scope always
takes the patterns path (unhandled keys are skipped by the loop).
-/

inductive GKind where
  | kBgp
  | kUnion
  | kOptional
  | kBraced
  | kFilter
deriving DecidableEq, Repr

def gKind : GItem → GKind
  | .gBgp _ => .kBgp
  | .gUnion _ _ => .kUnion
  | .gOptional _ => .kOptional
  | .gBraced _ => .kBraced
  | .gFilter _ => .kFilter

/-- The structured intermediate dictionaries produced by
convert_to_structured_dict for a pattern scope: an empty scope is Python
None, a multi-kind scope is an ordered patterns list whose elements are
single-kind dictionaries, and a single-kind scope is such a dictionary
directly (a bgp with its triple lists, a union with its two converted
sides, an optional or group with its converted scope, or a formatted
filter). -/
inductive SDict where
  | sNone
  | sPatterns (ps : List SDict)
  | sBgp (ts : List Triple)
  | sUnion (l r : SDict)
  | sOptional (p : SDict)
  | sGroup (g : SDict)
  | sFilter (e : String)

def sdKind : SDict → GKind
  | .sBgp _ => .kBgp
  | .sUnion _ _ => .kUnion
  | .sOptional _ => .kOptional
  | .sGroup _ => .kBraced
  | .sFilter _ => .kFilter
  | .sPatterns _ => .kBraced
  | .sNone => .kBraced

/-- Named keys of a scope: kinds in first-occurrence order. -/
def kindsInOrder (entries : List (GKind × SDict)) : List GKind :=
  entries.foldl (fun acc e => if e.1 ∈ acc then acc else acc ++ [e.1]) []

/-- The value a name maps to: the last match of that kind. -/
def lastEntryOf (k : GKind) (entries : List (GKind × SDict)) : SDict :=
  ((entries.filter (fun e => e.1 = k)).map (fun e => e.2)).getLastD (.sBgp [])

/-- The single-component and patterns paths of convert_to_structured_dict
on a scope whose elements are already converted: no named key yields Python
None; one pattern kind takes the single-component path (for a braced child,
collapsing one level when the child scope itself converted to a bare
group); several kinds yield the ordered patterns list, one entry per kind,
each holding the last match of its kind. -/
def scopeOf (entries : List (GKind × SDict)) : SDict :=
  match kindsInOrder entries with
  | [] => .sNone
  | [k] =>
    (match lastEntryOf k entries with
     | .sGroup (.sGroup g2) => .sGroup g2
     | other => other)
  | ks => .sPatterns (ks.map (fun k => lastEntryOf k entries))

mutual
/-- Convert one matched scope element to its single-kind dictionary: a bgp
keeps the triples, union and optional convert their nested scopes
recursively, a braced element becomes a group entry, a filter is
formatted. -/
def convertItem : GItem → SDict
  | .gBgp ts => .sBgp ts
  | .gUnion l r => .sUnion (scopeOf (convertItems l)) (scopeOf (convertItems r))
  | .gOptional inner => .sOptional (scopeOf (convertItems inner))
  | .gBraced inner => .sGroup (scopeOf (convertItems inner))
  | .gFilter e => .sFilter (formatFExpr e)

def convertItems : List GItem → List (GKind × SDict)
  | [] => []
  | it :: rest => (gKind it, convertItem it) :: convertItems rest
end

/-- Convert a nested scope. -/
def convertScope (items : List GItem) : SDict :=
  scopeOf (convertItems items)

/-- The top-level structured dictionary: ordered patterns plus the select,
group_by, having and order_by entries. -/
structure TopSDict where
  tsPatterns : List SDict
  tsStar : Bool
  tsVariables : List String
  tsAggs : List Agg
  tsDistinct : Bool
  tsGroupBy : Option (List String)
  tsHaving : Option String
  tsOrderBy : Option (List String × List Bool)

/-- The select conversion: plain variables keep their order; aggregation
elements are collected separately with their function, variable (or '*'),
alias and DISTINCT flag. -/
def convertProj : List ProjItem → List String × List Agg
  | [] => ([], [])
  | .pv v :: rest =>
    let r := convertProj rest
    (v :: r.1, r.2)
  | .pagg fn dist star v al :: rest =>
    let r := convertProj rest
    (r.1, ⟨fn, if star then "*" else v, al, dist⟩ :: r.2)

/-- The order_by conversion: plain terms are ascending; ASC/DESC terms take
their direction. -/
def convertOB : List OBTerm → List String × List Bool
  | [] => ([], [])
  | .obPlain v :: rest =>
    let r := convertOB rest
    (v :: r.1, true :: r.2)
  | .obDir asc v :: rest =>
    let r := convertOB rest
    (v :: r.1, asc :: r.2)

/-- Top-level conversion: the select and where names are always present, so
the pattern kinds of the WHERE scope are emitted through the ordered
patterns path regardless of their number. -/
def convertTop (qp : QParse) : TopSDict :=
  let entries := convertItems qp.qpItems
  let patterns := (kindsInOrder entries).map (fun k => lastEntryOf k entries)
  let pr := convertProj qp.qpProj
  { tsPatterns := patterns
    tsStar := qp.qpAll
    tsVariables := pr.1
    tsAggs := pr.2
    tsDistinct := qp.qpDistinct
    tsGroupBy := qp.qpGroupBy
    tsHaving := qp.qpHaving.map fmtHExpr
    tsOrderBy := qp.qpOrderBy.map convertOB }

mutual
/-- SPARQLParser.flatten_nested_structures: a dictionary that is exactly a
group holding exactly a group collapses recursively; all other values are
flattened component-wise. -/
def flattenSD : SDict → SDict
  | .sGroup (.sGroup x) => flattenSD (.sGroup x)
  | .sGroup g => .sGroup (flattenSD g)
  | .sUnion l r => .sUnion (flattenSD l) (flattenSD r)
  | .sOptional p => .sOptional (flattenSD p)
  | .sPatterns ps => .sPatterns (flattenSDs ps)
  | x => x

def flattenSDs : List SDict → List SDict
  | [] => []
  | d :: rest => flattenSD d :: flattenSDs rest
end

def flattenTop (d : TopSDict) : TopSDict :=
  { d with tsPatterns := flattenSDs d.tsPatterns }

/-- The triples of all bgp entries of a patterns list, concatenated. -/
def collectBgpTriples : List SDict → List Triple
  | [] => []
  | .sBgp ts :: rest => ts ++ collectBgpTriples rest
  | _ :: rest => collectBgpTriples rest

mutual
/-- SPARQLParser._build_where_clause: a patterns list first merges the
triples of all its bgp entries into one BGP, then builds the non-bgp
entries in order (filters are skipped); a single resulting part is returned
directly, otherwise the ordered list; with no triples, a single non-filter
entry is returned directly, while a single filter entry falls through the
dispatch loop and produces the empty list; group entries become
GroupGraphPattern wrappers when nesting is preserved and their bare
contents otherwise; an empty dictionary (Python None) is not iterable and
raises. -/
def buildWhere (pn : Bool) : SDict → Except String Pattern
  | .sPatterns ps => do
    let allTriples := collectBgpTriples ps
    let others := ps.filter (fun e => sdKind e ≠ .kBgp)
    let builtOthers ← buildEntryList pn ps
    if allTriples ≠ [] then
      let parts := Pattern.bgp allTriples [] :: builtOthers
      match parts with
      | [x] => return x
      | _ => return .seq parts
    else
      match others with
      | [] => return .bgp [] []
      | [e] =>
        if sdKind e = .kFilter then return .seq builtOthers
        else
          match builtOthers with
          | [x] => return x
          | _ => return .seq builtOthers
      | _ => return .seq builtOthers
  | .sBgp ts => .ok (.bgp ts [])
  | .sUnion l r => do
    let lp ← buildWhere pn l
    let rp ← buildWhere pn r
    return .unionOp lp rp
  | .sOptional p => do
    let ip ← buildWhere pn p
    return .optionalOp ip
  | .sGroup g => do
    let c ← buildWhere pn g
    return (if pn then .group c [] else c)
  | .sFilter _ => .ok (.bgp [] [])
  | .sNone => .error "TypeError: argument of type NoneType is not iterable"

/-- The dispatch loop over non-bgp pattern entries: unions, optionals and
groups are built in order, bgp entries (already merged) and filter entries
are skipped. -/
def buildEntryList (pn : Bool) : List SDict → Except String (List Pattern)
  | [] => .ok []
  | .sUnion l r :: rest => do
    let lp ← buildWhere pn l
    let rp ← buildWhere pn r
    let tail ← buildEntryList pn rest
    return .unionOp lp rp :: tail
  | .sOptional p :: rest => do
    let ip ← buildWhere pn p
    let tail ← buildEntryList pn rest
    return .optionalOp ip :: tail
  | .sGroup g :: rest => do
    let c ← buildWhere pn g
    let tail ← buildEntryList pn rest
    return (if pn then Pattern.group c [] else c) :: tail
  | _ :: rest => buildEntryList pn rest
end

/-- SPARQLParser.structured_dict_to_query: flatten unless nesting is
preserved; extract projection variables (wildcard when select-all),
DISTINCT, aggregations, filters (top-level and from the patterns), HAVING,
GROUP BY with its validation (only when the projection is not wildcard and
there are no aggregations; a projected variable missing from the GROUP BY
list raises OrderByValidationError naming it), ORDER BY, then build the
where clause and assemble the query. -/
def structuredDictToQuery (pn : Bool) (d0 : TopSDict) : Except String SQuery := do
  let d := if pn then d0 else flattenTop d0
  let projectionVariables := if d.tsStar then ["*"] else d.tsVariables
  let aggregations := d.tsAggs
  let filters := d.tsPatterns.filterMap (fun e =>
    match e with
    | .sFilter s => some s
    | _ => none)
  let having := match d.tsHaving with | some h => [h] | none => []
  let groupBy ←
    match d.tsGroupBy with
    | some vars =>
      if projectionVariables ≠ ["*"] && aggregations = [] then
        match projectionVariables.find? (fun v => !(vars.contains v)) with
        | some v => Except.error ("OrderByValidationError: Non-group key variable in SELECT: " ++ v)
        | none => pure (some vars)
      else pure (some vars)
    | none => pure (none : Option (List String))
  let orderBy := d.tsOrderBy.map (fun p => OrderBySpec.mk p.1 (.many p.2))
  let w ← buildWhere pn (.sPatterns d.tsPatterns)
  return SQuery.mk projectionVariables w
    (if filters ≠ [] then some filters else none)
    (if having ≠ [] then some having else none)
    orderBy groupBy none none none d.tsDistinct aggregations

/-- SPARQLParser.parse_to_query: parse the text (a failed grammar match
raises ParseException) and convert the structured dictionary to a query.
The pn flag is the parser's preserve_nesting attribute, True by default. -/
def parseToQuery (pn : Bool) (s : String) : Except String SQuery :=
  match parseQueryText s with
  | none => .error "ParseException"
  | some qp => structuredDictToQuery pn (convertTop qp)

/-- A mapping all of whose bindings are identical pairs; the shared mapping
built while comparing a tree with itself stays in this set. -/
def idOnly (m : VarMap) : Prop := ∀ p ∈ m, p.1 = p.2

/-- C9: calling remove() on any pattern node whose parent reference is unset
(an already-detached node) returns the boolean false, raises no error, and
there is no containing tree to change (the result carries no root where
clause). -/
theorem c9_remove_detached_is_noop :
    ∀ (t : Triple) (ts : List Triple) (fs : List String) (l r p : Pattern) (q : SQuery),
      removeTriplePattern t none = (false, none) ∧
      removeBGP ts fs none = .ok (false, none) ∧
      removeUnion l r none = .ok (false, none) ∧
      removeOptional p none = .ok (false, none) ∧
      removeGroup p fs none = .ok (false, none) ∧
      removeSubquery q none = .ok (false, none) := by
  intro t ts fs l r p q
  exact ⟨rfl, rfl, rfl, rfl, rfl, rfl⟩

/-- C3 counterexample: removing the sole BGP inside an OptionalOperator that
is the second element of a two-element list-valued where clause detaches the
BGP and cascades the Optional out of the list, but the resulting where
clause is the one-element list containing the remaining BGP, not that BGP
directly as the claim states. -/
theorem c3_counterexample :
    removeBGP [⟨"?x", "?y", "?z"⟩] []
        (some (.inOptional (.qList [.bgp [⟨"?a", "?b", "?c"⟩] []] [])))
      = .ok (true, some (.seq [.bgp [⟨"?a", "?b", "?c"⟩] []])) ∧
    Pattern.seq [.bgp [⟨"?a", "?b", "?c"⟩] []] ≠ Pattern.bgp [⟨"?a", "?b", "?c"⟩] [] := by
  refine ⟨rfl, fun h => ?_⟩
  exact Pattern.noConfusion h

/-- C3 amended: removing the sole BGP inside an OptionalOperator that is the
second element of a two-element top-level sequence detaches the BGP (the
call returns True), cascades to remove the OptionalOperator from the
sequence, and leaves the query's where clause as the one-element sequence
containing the remaining BGP (the list wrapper is not collapsed). -/
theorem c3_amended_remove_cascade :
    removeBGP [⟨"?x", "?y", "?z"⟩] []
        (some (.inOptional (.qList [.bgp [⟨"?a", "?b", "?c"⟩] []] [])))
      = .ok (true, some (.seq [.bgp [⟨"?a", "?b", "?c"⟩] []])) := rfl

/-- C5: instantiating ?website with the already-bracketed value
<http://example.org/jane> produces the doubly bracketed term
<<http://example.org/jane>> — _replace_variable wraps unconditionally, in
contradiction with the claim (and with test_variable_instantiation, which
expects the bracketed value to be inserted unchanged). -/
theorem c5_already_bracketed_value_double_wrapped :
    (instantiateQuery
        (SQuery.mk ["?person", "?website"]
          (.bgp [⟨"?person", "<http://example.org/homepage>", "?website"⟩] [])
          none none none none none none none false [])
        [("website", "<http://example.org/jane>")]).whereClause
      = .bgp [⟨"?person", "<http://example.org/homepage>", "<<http://example.org/jane>>"⟩] [] := rfl

/-- C8: three triples forming the directed cycle ?a→?b→?c→?a classify as
"Cycle", and four triples sharing subject ?s with distinct predicates and
objects classify as "Star". -/
theorem c8_cycle_and_star_shapes :
    determineGraphShape [⟨"?a", "?p1", "?b"⟩, ⟨"?b", "?p2", "?c"⟩, ⟨"?c", "?p3", "?a"⟩] = "Cycle" ∧
    determineGraphShape [⟨"?s", "?p1", "?o1"⟩, ⟨"?s", "?p2", "?o2"⟩,
        ⟨"?s", "?p3", "?o3"⟩, ⟨"?s", "?p4", "?o4"⟩] = "Star" := by
  exact ⟨by decide, by decide⟩

/-- C2: parsing SELECT ?age ?name (COUNT(?person) AS ?count) ... GROUP BY
?age constructs a query successfully — projection [?age, ?name], group-by
[?age], one COUNT aggregation — although ?name is neither grouped nor
aggregated: the GROUP BY validation of structured_dict_to_query is skipped
whenever aggregations are present, so no GroupingValidationError is
raised, contradicting the claim and the repository's own
test_group_by_aggregation_compatibility. -/
theorem c2_grouping_validation_skipped_with_aggregations :
    (match parseToQuery true
        "SELECT ?age ?name (COUNT(?person) AS ?count)\nWHERE \x7b\n  ?person :name ?name .\n  ?person :age ?age .\n\x7d\nGROUP BY ?age" with
     | .ok q =>
       decide (q.projectionVariables = ["?age", "?name"]) &&
       decide (q.groupBy = some ["?age"]) &&
       decide (q.aggs = [⟨"COUNT", "?person", "?count", false⟩])
     | .error _ => false) = true := by
  decide

/-- C10: when the projection list is the wildcard list, instantiate leaves
it untouched for every mapping (the projection rewriting branch is guarded
by projection_variables != ['*']). -/
theorem c10_wildcard_projection_untouched (q : SQuery) (m : VarMap)
    (h : q.projectionVariables = ["*"]) :
    (instantiateQuery q m).projectionVariables = ["*"] := by
  cases q with
  | mk pv w f hv ob gb lim off gr d ag =>
    simp only [SQuery.projectionVariables] at h
    simp [instantiateQuery, SQuery.projectionVariables, h]

/-- C10 witness: a concrete wildcard query whose every variable is
substituted still projects the wildcard. -/
theorem c10_wildcard_projection_untouched_witness :
    (SQuery.mk ["*"] (.bgp [⟨"?x", "?y", "?z"⟩] []) none none none none none none none false []).projectionVariables = ["*"] ∧
    (instantiateQuery
        (SQuery.mk ["*"] (.bgp [⟨"?x", "?y", "?z"⟩] []) none none none none none none none false [])
        [("x", "a"), ("y", "b"), ("z", "c")]).projectionVariables = ["*"] :=
  ⟨rfl, c10_wildcard_projection_untouched _ _ rfl⟩

/-- C4 counterexample: a variable inside a GroupGraphPattern wrapper is not
substituted — after instantiation with a mapping binding x, the reachable
term ?x is still a variable whose sigil-stripped name is a key of the
mapping, because _instantiate_clause has no GroupGraphPattern branch. -/
theorem c4_counterexample :
    "?x" ∈ patternTerms
        ((instantiateQuery
          (SQuery.mk ["*"] (.group (.bgp [⟨"?x", "?y", "?z"⟩] []) [])
            none none none none none none none false [])
          [("x", "http://example.org/v")]).whereClause) ∧
    startsQ "?x" = true ∧
    vmHasKey [("x", "http://example.org/v")] (strTail "?x") = true := by
  exact ⟨by decide, rfl, rfl⟩

theorem vmLookup_mem {k v : String} : ∀ {m : VarMap}, vmLookup m k = some v → (k, v) ∈ m
  | [], h => by simp [vmLookup] at h
  | (pk, pv) :: rest, h => by
    rw [vmLookup] at h
    split at h
    · next heq =>
      injection h with h
      subst heq; subst h
      exact List.mem_cons_self _ _
    · exact List.mem_cons_of_mem _ (vmLookup_mem h)

theorem idOnly_nil : idOnly [] := by
  intro p hp
  simp at hp

theorem idOnly_cons {k : String} {m : VarMap} (hm : idOnly m) : idOnly ((k, k) :: m) := by
  intro p hp
  rcases List.mem_cons.mp hp with h | h
  · subst h; rfl
  · exact hm p h

theorem idOnly_tail {p : String × String} {m : VarMap} (hm : idOnly (p :: m)) : idOnly m :=
  fun q hq => hm q (List.mem_cons_of_mem _ hq)

theorem idOnly_lookup {m : VarMap} (hm : idOnly m) {k w : String}
    (h : vmLookup m k = some w) : w = k :=
  (hm _ (vmLookup_mem h)).symm

theorem idOnly_hasValue_false {m : VarMap} (hm : idOnly m) {v : String}
    (h : vmLookup m v = none) : vmHasValue m v = false := by
  induction m with
  | nil => rfl
  | cons p rest ih =>
    obtain ⟨pk, pv⟩ := p
    rw [vmLookup] at h
    split at h
    · exact absurd h (by simp)
    · next hne =>
      have hpp : pk = pv := hm (pk, pv) (List.mem_cons_self _ _)
      have hrest := ih (idOnly_tail hm) h
      rw [vmHasValue] at hrest ⊢
      simp only [List.any_cons, Bool.or_eq_false_iff]
      refine ⟨?_, hrest⟩
      simp only [decide_eq_false_iff_not]
      intro hc
      exact hne (by rw [hpp, hc])

theorem compareTerms_self (t : String) {m : VarMap} (hm : idOnly m) :
    ∃ m2, compareTerms t t m = some m2 ∧ idOnly m2 := by
  rw [compareTerms]
  by_cases hq : startsQ t
  · rw [if_pos (by simp [hq])]
    cases hl : vmLookup m (strTail t) with
    | some w =>
      refine ⟨m, ?_, hm⟩
      have := idOnly_lookup hm hl
      simp [hl, this]
    | none =>
      refine ⟨(strTail t, strTail t) :: m, ?_, idOnly_cons hm⟩
      simp [hl, idOnly_hasValue_false hm hl]
  · rw [if_neg (by simp [hq])]
    exact ⟨m, by simp, hm⟩

theorem compareTriplePatterns_self (tp : Triple) {m : VarMap} (hm : idOnly m) :
    ∃ m2, compareTriplePatterns tp tp m = some m2 ∧ idOnly m2 := by
  obtain ⟨m1, h1, hm1⟩ := compareTerms_self tp.subject hm
  obtain ⟨m2, h2, hm2⟩ := compareTerms_self tp.predicate hm1
  obtain ⟨m3, h3, hm3⟩ := compareTerms_self tp.object hm2
  exact ⟨m3, by rw [compareTriplePatterns]; simp [h1, h2, h3], hm3⟩

theorem tryCands_skipAll (l2 : List Triple) (tp : Triple) (m : VarMap) (u : List Nat)
    (cont : List Nat → VarMap → Option VarMap) :
    ∀ ks1 ks2, (∀ j ∈ ks1, j ∈ u) →
      tryCands l2 tp m u cont (ks1 ++ ks2) = tryCands l2 tp m u cont ks2 := by
  intro ks1
  induction ks1 with
  | nil => intro ks2 _; rfl
  | cons k ks ih =>
    intro ks2 h
    have hk : k ∈ u := h k (List.mem_cons_self _ _)
    rw [List.cons_append, tryCands, if_pos hk]
    exact ih ks2 (fun j hj => h j (List.mem_cons_of_mem _ hj))

theorem range_split (len k : Nat) (hk : k < len) :
    List.range len = List.range k ++ (k :: List.range' (k + 1) (len - (k + 1))) := by
  have h1 : List.range' 0 k ++ List.range' (0 + k) (len - k) = List.range' 0 ((len - k) + k) :=
    List.range'_append_1 0 k (len - k)
  have h2 : (len - k) + k = len := by omega
  have h3 : len - k = (len - (k + 1)) + 1 := by omega
  rw [Nat.zero_add, h2] at h1
  rw [List.range_eq_range', List.range_eq_range', ← h1, h3, List.range'_succ]

theorem matchTriples_diag (l : List Triple) :
    ∀ (d k : Nat), l.length - k ≤ d → ∀ (u : List Nat), (∀ j, j ∈ u ↔ j < k) →
      ∀ (m : VarMap), idOnly m →
      ∃ m2, matchTriples l (l.drop k) u m = some m2 ∧ idOnly m2 := by
  intro d
  induction d with
  | zero =>
    intro k hk u _ m hm
    rw [List.drop_eq_nil_of_le (by omega)]
    exact ⟨m, rfl, hm⟩
  | succ d ih =>
    intro k hk u hu m hm
    by_cases hkl : k < l.length
    · rw [List.drop_eq_getElem_cons hkl, matchTriples]
      rw [range_split l.length k hkl,
        tryCands_skipAll l l[k] m u _ (List.range k) _
          (fun j hj => (hu j).mpr (List.mem_range.mp hj))]
      have hknu : k ∉ u := fun hc0 => absurd ((hu k).mp hc0) (lt_irrefl k)
      obtain ⟨m1, hc, hm1⟩ := compareTriplePatterns_self l[k] hm
      have hu2 : ∀ j, j ∈ (k :: u) ↔ j < k + 1 := by
        intro j
        simp only [List.mem_cons, hu j]
        omega
      obtain ⟨m2, hrec, hm2⟩ := ih (k + 1) (by omega) (k :: u) hu2 m1 hm1
      refine ⟨m2, ?_, hm2⟩
      rw [tryCands, if_neg hknu]
      simp only [List.getElem?_eq_getElem hkl, hc, hrec]
    · rw [List.drop_eq_nil_of_le (by omega)]
      exact ⟨m, rfl, hm⟩

theorem compareBGPs_self (ts : List Triple) {m : VarMap} (hm : idOnly m) :
    ∃ m2, compareBGPs ts ts m = some m2 ∧ idOnly m2 := by
  rw [compareBGPs, if_neg (by simp)]
  have h := matchTriples_diag ts ts.length 0 (by omega) []
    (by intro j; simp) m hm
  simpa using h

theorem psize_pos : ∀ p : Pattern, 1 ≤ psize p := by
  intro p
  match p with
  | .pnull => simp [psize]
  | .bgp _ _ => simp [psize]
  | .unionOp a b => simp [psize]
  | .optionalOp a => simp [psize]
  | .group a _ => simp [psize]
  | .subquery (.mk _ _ _ _ _ _ _ _ _ _ _) => simp [psize]
  | .seq xs => simp [psize]

theorem compare_self_strong : ∀ n : Nat,
    (∀ p : Pattern, psize p ≤ n → wfP p = true → ∀ m : VarMap, idOnly m →
      ∃ m2, compareClauses p p m = some m2 ∧ idOnly m2) ∧
    (∀ xs : List Pattern, lsize xs ≤ n → wfL xs = true → ∀ m : VarMap, idOnly m →
      ∃ m2, compareSeqs xs xs m = some m2 ∧ idOnly m2) := by
  intro n
  induction n with
  | zero =>
    constructor
    · intro p hp
      exfalso
      have := psize_pos p
      omega
    · intro xs hxs _ m hm
      match xs with
      | [] => exact ⟨m, rfl, hm⟩
      | x :: rest =>
        exfalso
        have := psize_pos x
        rw [lsize] at hxs
        omega
  | succ n ih =>
    constructor
    · intro p hp hwf m hm
      match p with
      | .pnull => simp [wfP] at hwf
      | .bgp ts fs =>
        obtain ⟨m2, h2, hm2⟩ := compareBGPs_self ts hm
        exact ⟨m2, by simpa [compareClauses] using h2, hm2⟩
      | .unionOp a b =>
        rw [wfP, Bool.and_eq_true] at hwf
        have hpa := psize_pos a
        have hpb := psize_pos b
        rw [psize] at hp
        obtain ⟨m1, h1, hm1⟩ := ih.1 a (by omega) hwf.1 m hm
        obtain ⟨m2, h2, hm2⟩ := ih.1 b (by omega) hwf.2 m1 hm1
        refine ⟨m2, ?_, hm2⟩
        rw [compareClauses]
        simp [h1, h2]
      | .optionalOp a =>
        rw [wfP] at hwf
        rw [psize] at hp
        obtain ⟨m2, h2, hm2⟩ := ih.1 a (by omega) hwf m hm
        exact ⟨m2, by rw [compareClauses]; exact h2, hm2⟩
      | .subquery (.mk pv w f hv ob gb lim off gr d ag) =>
        rw [wfP] at hwf
        rw [psize] at hp
        obtain ⟨m1, h1, _⟩ := ih.1 w (by omega) hwf [] idOnly_nil
        refine ⟨m, ?_, hm⟩
        rw [compareClauses]
        simp [h1]
      | .group p1 fs =>
        rw [wfP] at hwf
        rw [psize] at hp
        obtain ⟨m2, h2, hm2⟩ := ih.1 p1 (by omega) hwf m hm
        exact ⟨m2, by rw [compareClauses]; exact h2, hm2⟩
      | .seq xs =>
        rw [wfP] at hwf
        rw [psize] at hp
        obtain ⟨m2, h2, hm2⟩ := ih.2 xs (by omega) hwf m hm
        refine ⟨m2, ?_, hm2⟩
        rw [compareClauses, if_neg (by simp)]
        exact h2
    · intro xs hxs hwf m hm
      match xs with
      | [] => exact ⟨m, rfl, hm⟩
      | x :: rest =>
        rw [wfL, Bool.and_eq_true] at hwf
        rw [lsize] at hxs
        have hpx := psize_pos x
        obtain ⟨m1, h1, hm1⟩ := ih.1 x (by omega) hwf.1 m hm
        obtain ⟨m2, h2, hm2⟩ := ih.2 rest (by omega) hwf.2 m1 hm1
        refine ⟨m2, ?_, hm2⟩
        rw [compareSeqs, h1]
        simpa using h2

/-- C6: is_isomorphic is reflexive — for every query whose where clause is
an actual combination of BGP, Union, Optional, GroupGraphPattern, SubQuery
and sequence nodes (no Python None slot anywhere, including nested
subqueries), is_isomorphic(T, T) returns true. -/
theorem c6_is_isomorphic_reflexive (T : SQuery) (h : wfQ T = true) :
    isIsomorphic T T = true := by
  obtain ⟨m2, he, _⟩ :=
    (compare_self_strong (psize T.whereClause)).1 T.whereClause le_rfl h [] idOnly_nil
  rw [isIsomorphic, he]
  rfl

/-- C6 witness: a concrete query combining every pattern variant (a BGP, a
union of a BGP with an optional, a filtered group, a nested subquery, all
inside a top-level sequence) is isomorphic to itself. -/
theorem c6_is_isomorphic_reflexive_witness :
    wfQ (SQuery.mk ["?s"] (.seq [
        .bgp [⟨"?s", ":p", "?o"⟩, ⟨"?s", ":p", "?o2"⟩] [],
        .unionOp (.bgp [⟨"?a", ":q", "?b"⟩] []) (.optionalOp (.bgp [⟨"?c", ":r", "?d"⟩] [])),
        .group (.bgp [⟨"?e", ":t", "?f"⟩] []) ["?e > 3"],
        .subquery (.mk ["*"] (.bgp [⟨"?g", ":u", "?h"⟩] []) none none none none none none none false [])])
        none none none none none none none false []) = true ∧
    isIsomorphic
      (SQuery.mk ["?s"] (.seq [
        .bgp [⟨"?s", ":p", "?o"⟩, ⟨"?s", ":p", "?o2"⟩] [],
        .unionOp (.bgp [⟨"?a", ":q", "?b"⟩] []) (.optionalOp (.bgp [⟨"?c", ":r", "?d"⟩] [])),
        .group (.bgp [⟨"?e", ":t", "?f"⟩] []) ["?e > 3"],
        .subquery (.mk ["*"] (.bgp [⟨"?g", ":u", "?h"⟩] []) none none none none none none none false [])])
        none none none none none none none false [])
      (SQuery.mk ["?s"] (.seq [
        .bgp [⟨"?s", ":p", "?o"⟩, ⟨"?s", ":p", "?o2"⟩] [],
        .unionOp (.bgp [⟨"?a", ":q", "?b"⟩] []) (.optionalOp (.bgp [⟨"?c", ":r", "?d"⟩] [])),
        .group (.bgp [⟨"?e", ":t", "?f"⟩] []) ["?e > 3"],
        .subquery (.mk ["*"] (.bgp [⟨"?g", ":u", "?h"⟩] []) none none none none none none none false [])])
        none none none none none none none false []) = true :=
  ⟨by decide, c6_is_isomorphic_reflexive _ (by decide)⟩

/-- C7: UNION branches are commutative under isomorphism — for all actual
patterns A and B, any query whose where clause is Union(A, B) is isomorphic
to any query whose where clause is Union(B, A): when the straight pairing
of branches fails, _compare_unions retries with the crossed pairing, which
compares each branch with itself under the shared mapping. -/
theorem c7_union_branches_commutative (A B : Pattern) (q1 q2 : SQuery)
    (hA : wfP A = true) (hB : wfP B = true)
    (h1 : q1.whereClause = .unionOp A B) (h2 : q2.whereClause = .unionOp B A) :
    isIsomorphic q1 q2 = true := by
  rw [isIsomorphic, h1, h2, compareClauses]
  cases hfirst : (compareClauses A B []).bind (fun m1 => compareClauses B A m1) with
  | some m2 => simp [hfirst]
  | none =>
    obtain ⟨mA, hA1, hmA⟩ := (compare_self_strong (psize A)).1 A le_rfl hA [] idOnly_nil
    obtain ⟨mB, hB1, _⟩ := (compare_self_strong (psize B)).1 B le_rfl hB mA hmA
    simp [hfirst, hA1, hB1]

/-- C7 witness: Union of a one-triple BGP and an optional-wrapped BGP
commutes (the two branches have different shapes, so the straight pairing
fails and the crossed pairing is used). -/
theorem c7_union_branches_commutative_witness :
    wfP (.bgp [⟨"?a", ":p", "?b"⟩] []) = true ∧
    wfP (.optionalOp (.bgp [⟨"?c", ":q", "?d"⟩] [])) = true ∧
    isIsomorphic
      (SQuery.mk ["*"] (.unionOp (.bgp [⟨"?a", ":p", "?b"⟩] [])
          (.optionalOp (.bgp [⟨"?c", ":q", "?d"⟩] [])))
        none none none none none none none false [])
      (SQuery.mk ["*"] (.unionOp (.optionalOp (.bgp [⟨"?c", ":q", "?d"⟩] []))
          (.bgp [⟨"?a", ":p", "?b"⟩] []))
        none none none none none none none false []) = true :=
  ⟨by decide, by decide,
    c7_union_branches_commutative (.bgp [⟨"?a", ":p", "?b"⟩] [])
      (.optionalOp (.bgp [⟨"?c", ":q", "?d"⟩] [])) _ _
      (by decide) (by decide) rfl rfl⟩

theorem startsQ_bracketed (w : String) : startsQ ("<" ++ w ++ ">") = false := rfl

theorem replaceVariable_safe (v : String) (m : VarMap) :
    ¬(startsQ (replaceVariable v m) = true ∧
      vmHasKey m (strTail (replaceVariable v m)) = true) := by
  intro hc
  rw [replaceVariable] at hc
  by_cases hq : startsQ v
  · rw [if_pos hq] at hc
    cases hl : vmLookup m (strTail v) with
    | some w =>
      simp only [hl] at hc
      rw [startsQ_bracketed] at hc
      exact absurd hc.1 (by simp)
    | none =>
      simp only [hl] at hc
      have h2 := hc.2
      rw [vmHasKey, hl] at h2
      simp at h2
  · rw [if_neg hq] at hc
    exact hq hc.1

theorem tripleTerms_map_replace (m : VarMap) :
    ∀ (ts : List Triple) (t : String),
      t ∈ tripleTermsList (ts.map (fun tr =>
        { subject := replaceVariable tr.subject m,
          predicate := replaceVariable tr.predicate m,
          object := replaceVariable tr.object m })) →
      ∃ v, t = replaceVariable v m := by
  intro ts
  induction ts with
  | nil => intro t ht; simp [tripleTermsList] at ht
  | cons tr rest ih =>
    intro t ht
    rw [List.map_cons, tripleTermsList] at ht
    simp only [List.mem_cons] at ht
    rcases ht with h | h | h | h
    · exact ⟨tr.subject, h⟩
    · exact ⟨tr.predicate, h⟩
    · exact ⟨tr.object, h⟩
    · exact ih t h

theorem instantiate_safe_strong : ∀ n : Nat,
    (∀ p : Pattern, psize p ≤ n → noGroupP p = true → ∀ m : VarMap,
      ∀ t ∈ patternTerms (instantiateClause p m),
        ¬(startsQ t = true ∧ vmHasKey m (strTail t) = true)) ∧
    (∀ xs : List Pattern, lsize xs ≤ n → noGroupL xs = true → ∀ m : VarMap,
      ∀ t ∈ patternTermsList (instantiateList xs m),
        ¬(startsQ t = true ∧ vmHasKey m (strTail t) = true)) := by
  intro n
  induction n with
  | zero =>
    constructor
    · intro p hp
      exfalso
      have := psize_pos p
      omega
    · intro xs hxs _ m t ht
      match xs with
      | [] => simp [instantiateList, patternTermsList] at ht
      | x :: rest =>
        exfalso
        have := psize_pos x
        rw [lsize] at hxs
        omega
  | succ n ih =>
    constructor
    · intro p hp hng m t ht
      match p with
      | .pnull => simp [instantiateClause, patternTerms] at ht
      | .group _ _ => simp [noGroupP] at hng
      | .bgp ts fs =>
        rw [instantiateClause, patternTerms] at ht
        obtain ⟨v, hv⟩ := tripleTerms_map_replace m ts t ht
        rw [hv]
        exact replaceVariable_safe v m
      | .unionOp a b =>
        rw [noGroupP, Bool.and_eq_true] at hng
        have hpa := psize_pos a
        have hpb := psize_pos b
        rw [psize] at hp
        rw [instantiateClause, patternTerms, List.mem_append] at ht
        rcases ht with h | h
        · exact ih.1 a (by omega) hng.1 m t h
        · exact ih.1 b (by omega) hng.2 m t h
      | .optionalOp a =>
        rw [noGroupP] at hng
        rw [psize] at hp
        rw [instantiateClause, patternTerms] at ht
        exact ih.1 a (by omega) hng m t ht
      | .subquery (.mk pv w f hv ob gb lim off gr d ag) =>
        rw [noGroupP] at hng
        rw [psize] at hp
        rw [instantiateClause, instantiateQuery, patternTerms] at ht
        exact ih.1 w (by omega) hng m t ht
      | .seq xs =>
        rw [noGroupP] at hng
        rw [psize] at hp
        rw [instantiateClause, patternTerms] at ht
        exact ih.2 xs (by omega) hng m t ht
    · intro xs hxs hng m t ht
      match xs with
      | [] => simp [instantiateList, patternTermsList] at ht
      | x :: rest =>
        rw [noGroupL, Bool.and_eq_true] at hng
        rw [lsize] at hxs
        have hpx := psize_pos x
        rw [instantiateList, patternTermsList, List.mem_append] at ht
        rcases ht with h | h
        · exact ih.1 x (by omega) hng.1 m t h
        · exact ih.2 rest (by omega) hng.2 m t h

/-- C4 amended: instantiate substitutes through BGP, Union, Optional,
sequence and nested SubQuery nodes (a GroupGraphPattern has no branch in
_instantiate_clause and is left untouched); for every query whose where
clause contains no GroupGraphPattern wrapper, after instantiation no
reachable triple term is a variable whose sigil-stripped name is a key of
the mapping. -/
theorem c4_instantiate_no_mapped_vars_outside_groups (q : SQuery) (m : VarMap)
    (h : noGroupP q.whereClause = true) :
    ∀ t ∈ patternTerms ((instantiateQuery q m).whereClause),
      ¬(startsQ t = true ∧ vmHasKey m (strTail t) = true) := by
  cases q with
  | mk pv w f hv ob gb lim off gr d ag =>
    intro t ht
    rw [SQuery.whereClause] at h
    rw [instantiateQuery, SQuery.whereClause] at ht
    exact (instantiate_safe_strong (psize w)).1 w le_rfl h m t ht

/-- C4 witness: a concrete group-free tree with every handled variant, under
a mapping binding each of its variables, has no mapped variable left. -/
theorem c4_instantiate_no_mapped_vars_outside_groups_witness :
    noGroupP (SQuery.mk ["*"] (.seq [
        .bgp [⟨"?x", ":p", "?y"⟩] [],
        .unionOp (.bgp [⟨"?x", ":q", "?z"⟩] []) (.optionalOp (.bgp [⟨"?y", ":r", "?z"⟩] [])),
        .subquery (.mk ["*"] (.bgp [⟨"?x", ":u", "?w"⟩] []) none none none none none none none false [])])
        none none none none none none none false []).whereClause = true ∧
    (∀ t ∈ patternTerms ((instantiateQuery
        (SQuery.mk ["*"] (.seq [
          .bgp [⟨"?x", ":p", "?y"⟩] [],
          .unionOp (.bgp [⟨"?x", ":q", "?z"⟩] []) (.optionalOp (.bgp [⟨"?y", ":r", "?z"⟩] [])),
          .subquery (.mk ["*"] (.bgp [⟨"?x", ":u", "?w"⟩] []) none none none none none none none false [])])
          none none none none none none none false [])
        [("x", "a"), ("y", "b"), ("z", "c"), ("w", "d")]).whereClause),
      ¬(startsQ t = true ∧ vmHasKey [("x", "a"), ("y", "b"), ("z", "c"), ("w", "d")] (strTail t) = true)) :=
  ⟨by decide, c4_instantiate_no_mapped_vars_outside_groups _ _ (by decide)⟩

